import Mathlib

/-!
# Webdis WebSocket layer (`src/websocket.c`)

A shallow embedding of the frame decoder, the caller loop, the frame encoder,
the write scheduler and the handshake of `websocket.c`, with the properties
of its specification stated over the embedding.

Conventions of the embedding.

* A byte is a natural number below 256 (the bit pattern of a C `char`).
  A byte buffer is a `List Nat`; the C pair `(pointer, size)` is the list and
  its length.
* `size_t` and `uint64_t` are naturals with arithmetic reduced modulo `2^64`
  where the C code can wrap.
* A read at an index outside the `sz` bytes of the buffer is undefined
  behaviour in C; the embedding makes it the explicit outcome
  `ParseResult.fault`. Likewise a write past the end of the buffer the frame
  encoder allocated gives the encoder no result (`none`).
* Whether plain `char` is signed is implementation-defined; the embedding
  takes it as the parameter `signedChar`.
* `calloc`/`realloc` in the decoder are not checked by the C code; the
  embedding describes the runs in which they succeed.
* Code that is not among the sources (the structures of the headers, the
  HTTP client, the command subsystem, SHA-1 and base64) is a parameter of the
  embedding or is modelled from the specification, and says so.
-/

namespace Webdis

/-! ## Data model -/

/-- The `enum ws_state` of `websocket.h`. -/
inductive ws_state where
  | WS_ERROR
  | WS_READING
  | WS_MSG_COMPLETE
deriving DecidableEq, Repr

/-- Modelled from the spec: `struct ws_msg` is declared in `websocket.h`,
which is not among the sources. It is the in-progress message accumulator:
the unmasked payload bytes gathered so far (`payload`, with
`payload_sz = payload.length`) and the cumulative number of raw bytes
consumed (`total_sz`). -/
structure ws_msg where
  payload : List Nat
  total_sz : Nat
deriving DecidableEq, Repr

/-- The value `calloc` gives a fresh `struct ws_msg` (`ws_msg_new`). -/
def ws_msg_new : ws_msg := { payload := [], total_sz := 0 }

/-- Outcome of one run of the decoder: either the C function returns a state
and leaves the accumulator pointer as `msg`, or it reads outside the `sz`
bytes it was given. -/
inductive ParseResult where
  | fault
  | done (state : ws_state) (msg : Option ws_msg)
deriving DecidableEq, Repr

/-! ## Reading memory -/

/-- Two to the sixty-fourth: the modulus of `size_t` and `uint64_t`. -/
def U64 : Nat := 2 ^ 64

/-- Read `n` bytes starting at offset `start` of a buffer; `none` when the
range is not inside the buffer. -/
def readBytes (frame : List Nat) (start n : Nat) : Option (List Nat) :=
  if start + n ≤ frame.length then some ((frame.drop start).take n) else none

/-- The conversion `(uint64_t)(c)` of a `char` holding bit pattern `b`:
sign extension when `char` is signed and the top bit is set. -/
def char_to_u64 (signedChar : Bool) (b : Nat) : Nat :=
  if signedChar && decide (128 ≤ b) then b + (U64 - 256) else b

/-- The macro `webdis_ntohl64(p)`, lines 31-35: byte `k` of `p` is converted
to `uint64_t`, shifted left by `8 * k`, and the eight terms are added, all in
`uint64_t`. -/
def webdis_ntohl64 (signedChar : Bool) (p : List Nat) : Nat :=
  (((char_to_u64 signedChar (p.getD 0 0)) <<< 0) % U64
    + ((char_to_u64 signedChar (p.getD 1 0)) <<< 8) % U64
    + ((char_to_u64 signedChar (p.getD 2 0)) <<< 16) % U64
    + ((char_to_u64 signedChar (p.getD 3 0)) <<< 24) % U64
    + ((char_to_u64 signedChar (p.getD 4 0)) <<< 32) % U64
    + ((char_to_u64 signedChar (p.getD 5 0)) <<< 40) % U64
    + ((char_to_u64 signedChar (p.getD 6 0)) <<< 48) % U64
    + ((char_to_u64 signedChar (p.getD 7 0)) <<< 56) % U64) % U64

/-- The value of `ntohs` on the two bytes copied from `frame + 2`. -/
def ntohs (b0 b1 : Nat) : Nat := 256 * b0 + b1

/-! ## The accumulator -/

/-- The masking loop of `ws_msg_add`, lines 260-262, from index `i` on:
byte `i` of the copied payload becomes `p[i] ^ mask[i % 4]`. -/
def apply_mask (mask : List Nat) : Nat → List Nat → List Nat
  | _, [] => []
  | i, b :: rest => (b ^^^ mask.getD (i % 4) 0) :: apply_mask mask (i + 1) rest

/-- The function `ws_msg_add`, lines 251-266: grow the payload by the `psz`
bytes of `p`, copy them, and apply the mask when there is one. -/
def ws_msg_add (m : ws_msg) (p : List Nat) (mask : Option (List Nat)) : ws_msg :=
  { m with payload := m.payload ++
      (match mask with
       | none => p
       | some k => apply_mask k 0 p) }

/-! ## The decoder -/

/-- Lines 310-324 of `ws_parse_data`, shared by the three length classes:
`hdr` is the header size (2, 4 or 10), `len` the payload length found.
The mask is copied from `frame + hdr` when `has_mask`; the payload pointer is
`p = frame + hdr + (has_mask ? 4 : 0)`; the comparison `len > sz - (p - frame)`
is made in `uint64_t`. -/
def ws_parse_tail (frame : List Nat) (msg : Option ws_msg)
    (has_mask : Bool) (hdr len : Nat) : ParseResult :=
  let sz := frame.length
  let off := hdr + (if has_mask then 4 else 0)
  match (if has_mask then (readBytes frame hdr 4).map some else some none) with
  | none => ParseResult.fault
  | some mask =>
    if len > (sz + U64 - off) % U64 then
      ParseResult.done ws_state.WS_READING msg
    else
      match readBytes frame off len with
      | none => ParseResult.fault
      | some p =>
        let m0 := match msg with
          | none => ws_msg_new
          | some m => m
        let m1 := ws_msg_add m0 p mask
        let m2 := { m1 with total_sz := (m1.total_sz + (len + off) % U64) % U64 }
        if (frame.getD 0 0) &&& 0x80 ≠ 0 then
          ParseResult.done ws_state.WS_MSG_COMPLETE (some m2)
        else
          ParseResult.done ws_state.WS_READING (some m2)

/-- The function `ws_parse_data`, lines 276-325. `frame` holds the `sz` bytes
available; `msg` is the accumulator (`*msg`, absent when `NULL`). -/
def ws_parse_data (signedChar : Bool) (frame : List Nat) (msg : Option ws_msg) :
    ParseResult :=
  if frame.length < 8 then
    ParseResult.done ws_state.WS_READING msg
  else
    let has_mask : Bool := decide ((frame.getD 1 0) &&& 0x80 ≠ 0)
    let len := (frame.getD 1 0) &&& 0x7f
    if len ≤ 125 then
      ws_parse_tail frame msg has_mask 2 len
    else if len = 126 then
      ws_parse_tail frame msg has_mask 4 (ntohs (frame.getD 2 0) (frame.getD 3 0))
    else if len = 127 then
      match readBytes frame 2 8 with
      | none => ParseResult.fault
      | some lenBytes =>
        ws_parse_tail frame msg has_mask 10 (webdis_ntohl64 signedChar lenBytes)
    else
      ParseResult.done ws_state.WS_ERROR msg

/-! ## The connection and the collaborators of the dispatcher -/

/-- The bytes of a C string literal. -/
def cstr (s : String) : List Nat := s.toList.map Char.toNat

/-- Modelled from the spec: `struct cmd` is declared in `cmd.h`, which is not
among the sources. Of a backend command object the WebSocket layer touches
the database number, the WebSocket tag, the backend session `ac` and the
back-pointer `pub_sub_client` (here: whether it is set); `args` stands for
what the format adapter extracted. -/
structure cmd where
  database : Nat
  is_websocket : Bool
  ac : Option Nat
  pub_sub_client : Bool
  args : List (List Nat)
deriving DecidableEq, Repr

/-- The two reply-formatting functions a command can be sent with. -/
inductive formatting_fun where
  | json_reply
  | raw_reply
deriving DecidableEq, Repr

/-- Modelled from the spec: `client_get_header` is defined in `client.c`,
which is not among the sources. These are the values it returns for the four
header names the handshake asks for (`none` is `NULL`); a value is a C string,
so it holds no zero byte. -/
structure request_headers where
  sec_websocket_key : Option (List Nat)
  origin : Option (List Nat)
  sec_websocket_origin : Option (List Nat)
  host : Option (List Nat)
deriving DecidableEq, Repr

/-- Modelled from the spec: `struct http_client` is declared in `client.h`,
which is not among the sources. The fields the WebSocket layer uses:
the input buffer (`buffer`, `sz`), the accumulator `frame`, the request path
(`path`, `path_sz`; a zero-terminated string), the request headers, the
command holding the connection's backend session (`self_cmd`), the output
queue `ws_wbuf` (`none` is `NULL`), the write-scheduled flag, and whether
the descriptor `fd` has been closed. -/
structure http_client where
  buffer : List Nat
  frame : Option ws_msg
  path : Option (List Nat)
  headers : request_headers
  self_cmd : Option cmd
  ws_wbuf : Option (List Nat)
  ws_scheduled_write : Bool
  fd_closed : Bool
deriving DecidableEq, Repr

/-- The collaborators of `websocket.c` that are defined elsewhere, taken as
parameters: the two extraction functions of the format adapters (`none` is
a `NULL` command), `cmd_setup`, `pool_connect` (given the database and the
number of sessions opened before), the SHA-1 and base64 routines, and
whether the allocation, queueing and registration calls succeed. -/
structure Env where
  json_ws_extract : http_client → List Nat → Option cmd
  raw_ws_extract : http_client → List Nat → Option cmd
  cmd_setup : cmd → http_client → cmd
  pool_connect : Nat → Nat → Option Nat
  sha1 : List Nat → List Nat
  base64_encode : List Nat → List Nat
  calloc_ok : Bool
  malloc_ok : Bool
  evbuffer_new_ok : Bool
  evbuffer_add_ok : Bool
  event_add_ok : Bool

/-- What the layer has asked of its collaborators so far: the number of
backend sessions opened with `pool_connect`, the payloads handed to
`ws_execute`, the byte counts handed to `http_client_remove_data`, and the
commands handed to `cmd_send`, each oldest first. -/
structure World where
  pool_connects : Nat
  executed : List (List Nat)
  removed : List Nat
  sent : List (cmd × formatting_fun)
deriving DecidableEq, Repr

/-- The test `strncmp(s, lit, n) == 0` on zero-terminated strings: the first
`n` characters agree, the comparison stopping at a terminator. -/
def strncmp_eq (s lit : List Nat) (n : Nat) : Bool :=
  (s ++ [0]).take n == (lit ++ [0]).take n

/-- The function `ws_execute`, lines 198-244. The result is the new state of
the collaborators and of the client with the returned `int`; `none` stands
for the dereference of a `NULL` path. -/
def ws_execute (env : Env) (w : World) (c : http_client) (frame : List Nat) :
    Option (World × http_client × Int) :=
  match c.path with
  | none => none
  | some path =>
    let sel : Option ((http_client → List Nat → Option cmd) × formatting_fun) :=
      if (path.length == 1 && strncmp_eq path (cstr "/") 1)
          || strncmp_eq path (cstr "/.json") 6 then
        some (env.json_ws_extract, formatting_fun.json_reply)
      else if strncmp_eq path (cstr "/.raw") 5 then
        some (env.raw_ws_extract, formatting_fun.raw_reply)
      else none
    match sel with
    | none => some (w, c, -1)
    | some (fun_extract, fun_reply) =>
      match fun_extract c frame with
      | none => some (w, c, -1)
      | some cmd0 =>
        let cmd1 := { env.cmd_setup cmd0 c with is_websocket := true }
        match c.self_cmd with
        | some own =>
          let cmd2 := { cmd1 with ac := own.ac }
          some ({ w with sent := w.sent ++ [(cmd2, fun_reply)] }, c, 0)
        | none =>
          let cmd2 := { cmd1 with
            ac := env.pool_connect cmd1.database w.pool_connects,
            pub_sub_client := true }
          some ({ w with pool_connects := w.pool_connects + 1,
                         sent := w.sent ++ [(cmd2, fun_reply)] },
                { c with self_cmd := some cmd2 }, 0)

/-- Modelled from the spec: `http_client_remove_data` is defined in
`client.c`, which is not among the sources. It trims exactly `n` bytes from
the front of the input buffer. -/
def http_client_remove_data (c : http_client) (n : Nat) : http_client :=
  { c with buffer := c.buffer.drop n }

/-- Outcome of `ws_add_data`: the returned state with the new state of the
collaborators and of the client, or undefined behaviour. -/
inductive AddResult where
  | fault
  | ret (state : ws_state) (w : World) (c : http_client)
deriving DecidableEq, Repr

/-- The function `ws_add_data`, lines 331-355. Each unit of `fuel` pays for
one call of the decoder; `none` means the fuel ran out before the C function
returned. -/
def ws_add_data (signedChar : Bool) (env : Env) :
    Nat → World → http_client → Option AddResult
  | 0, _, _ => none
  | fuel + 1, w, c =>
    match ws_parse_data signedChar c.buffer c.frame with
    | ParseResult.fault => some AddResult.fault
    | ParseResult.done state msg =>
      let c1 := { c with frame := msg }
      if state = ws_state.WS_MSG_COMPLETE then
        match msg with
        | none => some AddResult.fault
        | some m =>
          match ws_execute env { w with executed := w.executed ++ [m.payload] } c1
              m.payload with
          | none => some AddResult.fault
          | some (w2, c2, r) =>
            let c3 := http_client_remove_data c2 m.total_sz
            let w3 := { w2 with removed := w2.removed ++ [m.total_sz] }
            let c4 := { c3 with frame := none }
            if r ≠ 0 then
              some (AddResult.ret ws_state.WS_ERROR w3 c4)
            else
              ws_add_data signedChar env fuel w3 c4
      else
        some (AddResult.ret state w c1)

/-- Modelled from the spec: the caller (`worker.c`, not among the sources)
appends the bytes read from the socket to the input buffer before it calls
`ws_add_data`. -/
def http_client_read (c : http_client) (bytes : List Nat) : http_client :=
  { c with buffer := c.buffer ++ bytes }

/-! ## The frame encoder and the write scheduler -/

/-- The two bytes `memcpy` takes from `uint16_t sz16 = htons(sz)`: the low
sixteen bits of `sz`, most significant byte first. -/
def htons_bytes (sz : Nat) : List Nat :=
  [((sz % 65536) / 256) % 256, (sz % 65536) % 256]

/-- The macro `webdis_htonl64(p)`, lines 37-41: element `k` of the
initialiser is `(char)(((p & (0xff << 8k)) >> 8k) & 0xff)`. -/
def webdis_htonl64 (p : Nat) : List Nat :=
  [ (((p &&& (0xff <<< 0)) >>> 0) &&& 0xff),
    (((p &&& (0xff <<< 8)) >>> 8) &&& 0xff),
    (((p &&& (0xff <<< 16)) >>> 16) &&& 0xff),
    (((p &&& (0xff <<< 24)) >>> 24) &&& 0xff),
    (((p &&& (0xff <<< 32)) >>> 32) &&& 0xff),
    (((p &&& (0xff <<< 40)) >>> 40) &&& 0xff),
    (((p &&& (0xff <<< 48)) >>> 48) &&& 0xff),
    (((p &&& (0xff <<< 56)) >>> 56) &&& 0xff) ]

/-- The number of bytes `ws_frame_and_send_response` allocates for a payload
of `sz` bytes, line 360. -/
def frame_alloc_sz (sz : Nat) : Nat := (sz + 8) % U64

/-- The bytes `ws_frame_and_send_response` writes into `frame` for the
payload `p`, lines 372-389: indices `0` to `frame_sz - 1`, in order. -/
def ws_frame (p : List Nat) : List Nat :=
  let sz := p.length
  if sz ≤ 125 then
    [0x81, sz] ++ p
  else if sz ≤ 65536 then
    [0x81, 126] ++ htons_bytes sz ++ p
  else
    [0x81, 127] ++ webdis_htonl64 sz ++ p

/-- The function `ws_schedule_write`, lines 424-438. -/
def ws_schedule_write (env : Env) (c : http_client) : http_client :=
  if c.ws_scheduled_write then c
  else if env.event_add_ok then { c with ws_scheduled_write := true }
  else c

/-- The function `ws_frame_and_send_response`, lines 357-403, on the client
of the command. `none` stands for undefined behaviour: the function writes
the frame past the end of the `sz + 8` bytes it allocated (and `evbuffer_add`
reads it back from there), or `evbuffer_add` is called on a `NULL` queue. -/
def ws_frame_and_send_response (env : Env) (c : http_client) (p : List Nat) :
    Option (http_client × Int) :=
  if !env.malloc_ok then some (c, -1)
  else
    let frame := ws_frame p
    if frame_alloc_sz p.length < frame.length then none
    else
      match c.ws_wbuf with
      | none => none
      | some q =>
        if !env.evbuffer_add_ok then some (c, -1)
        else some (ws_schedule_write env { c with ws_wbuf := some (q ++ frame) }, 0)

/-- The function `ws_can_write`, lines 405-422. `ret` is what
`evbuffer_write` returned and `rest` the queue it left behind. -/
def ws_can_write (env : Env) (c : http_client) (ret : Int) (rest : List Nat) :
    http_client :=
  let c1 := { c with ws_scheduled_write := false, ws_wbuf := some rest }
  if ret < 0 then { c1 with fd_closed := true }
  else if ret > 0 ∧ rest.length > 0 then ws_schedule_write env c1
  else c1

/-! ## The handshake -/

/-- The GUID of RFC 6455 (`magic`, line 46). -/
def magic : List Nat := cstr "258EAFA5-E914-47DA-95CA-C5AB0DC85B11"

/-- The function `ws_compute_handshake`, lines 42-90: `none` when it returns
`-1`, otherwise the `out_sz` characters of the accept value. -/
def ws_compute_handshake (env : Env) (c : http_client) : Option (List Nat) :=
  let key := c.headers.sec_websocket_key
  let key_sz := match key with
    | some k => k.length
    | none => 0
  match key with
  | none => none
  | some k =>
    if key_sz < 16 ∨ key_sz > 32 then none
    else if !env.calloc_ok then none
    else
      let buffer := k ++ magic
      let sha1_output := env.sha1 buffer
      let out := env.base64_encode sha1_output
      let out_sz := out.length
      let out_sz := if out.getD (out_sz - 1) 0 = 10 then out_sz - 1 else out_sz
      some (out.take out_sz)

/-- The string `template_start`, lines 100-102. -/
def template_start : List Nat :=
  cstr "HTTP/1.1 101 Switching Protocols\r\nUpgrade: websocket\r\nConnection: Upgrade"

/-- The string `template_accept`, lines 103-104. -/
def template_accept : List Nat := cstr "\r\nSec-WebSocket-Accept: "

/-- The string `template_sec_origin`, lines 105-106. -/
def template_sec_origin : List Nat := cstr "\r\nSec-WebSocket-Origin: "

/-- The string `template_loc`, lines 107-108. -/
def template_loc : List Nat := cstr "\r\nSec-WebSocket-Location: ws://"

/-- The string `template_end`, line 109. -/
def template_end : List Nat := cstr "\r\n\r\n"

/-- The origin the handshake uses, lines 111-115. -/
def handshake_origin (h : request_headers) : Option (List Nat) :=
  match h.origin with
  | some o => some o
  | none => h.sec_websocket_origin

/-- The response size `sz` computed at lines 133-137. -/
def handshake_sz (accept : List Nat) (origin : Option (List Nat))
    (host path : List Nat) : Nat :=
  template_start.length
    + template_accept.length + accept.length
    + (match origin with
       | some o => if o.length ≠ 0 then template_sec_origin.length + o.length else 0
       | none => 0)
    + template_loc.length + host.length + path.length
    + template_end.length

/-- The bytes written through `p` at lines 147-175. -/
def handshake_bytes (accept : List Nat) (origin : Option (List Nat))
    (host path : List Nat) : List Nat :=
  template_start
    ++ template_accept ++ accept
    ++ (match origin with
        | some o => if o.length ≠ 0 then template_sec_origin ++ o else []
        | none => [])
    ++ template_loc ++ host ++ path
    ++ template_end

/-- The function `ws_handshake_reply`, lines 92-195: the new state of the
client and the returned `int`. The queue receives the first `sz` bytes of
the assembled buffer. -/
def ws_handshake_reply (env : Env) (c : http_client) : http_client × Int :=
  let origin := handshake_origin c.headers
  match c.headers.host, c.path with
  | some host, some path =>
    if host.length = 0 ∨ path.length = 0 then (c, -1)
    else
      match ws_compute_handshake env c with
      | none => (c, -1)
      | some accept =>
        let sz := handshake_sz accept origin host path
        if !env.malloc_ok then (c, -1)
        else
          let buffer := handshake_bytes accept origin host path
          if !env.evbuffer_new_ok then ({ c with ws_wbuf := none }, -1)
          else if !env.evbuffer_add_ok then ({ c with ws_wbuf := some [] }, -1)
          else (ws_schedule_write env { c with ws_wbuf := some (buffer.take sz) }, 0)
  | _, _ => (c, -1)

/-! ## Statement vocabulary -/

/-- The payload of the accumulator, empty when there is none. -/
def acc_payload (msg : Option ws_msg) : List Nat :=
  match msg with
  | none => []
  | some m => m.payload

/-- The consumed-byte total of the accumulator, zero when there is none. -/
def acc_total (msg : Option ws_msg) : Nat :=
  match msg with
  | none => 0
  | some m => m.total_sz

/-- The `n` payload bytes of a frame as the wire format defines them: payload
byte `i` sits at index `h + m + i`, where `h` is the header size and `m` the
mask size, and when the frame is masked it is XORed with mask byte `i mod 4`,
the mask being the four bytes at index `h`. -/
def wire_payload (frame : List Nat) (h : Nat) (masked : Bool) (n : Nat) : List Nat :=
  (List.range n).map (fun i =>
    if masked then frame.getD (h + 4 + i) 0 ^^^ frame.getD (h + i % 4) 0
    else frame.getD (h + i) 0)

/-- The bytes `f` are exactly one frame of the 7-bit or the 16-bit length
class, with header size `h` and payload length `n`: the length field is
`n <= 125` and `h = 2`, or it is 126 with `n` the big-endian value of bytes 2
and 3 and `h = 4`; and `f` has `h + m + n` bytes, `m` being 4 when the MASK
bit is set and 0 otherwise. -/
def is_small_frame (f : List Nat) (h n : Nat) : Prop :=
  ((f.getD 1 0 % 128 = n ∧ n ≤ 125 ∧ h = 2)
    ∨ (f.getD 1 0 % 128 = 126 ∧ n = 256 * f.getD 2 0 + f.getD 3 0 ∧ h = 4))
  ∧ f.length = h + (if f.getD 1 0 / 128 % 2 = 1 then 4 else 0) + n

/-- The MASK bit of a frame: the top bit of byte 1. -/
def frame_masked (f : List Nat) : Bool := decide (f.getD 1 0 / 128 % 2 = 1)

/-- The FIN bit of a frame: the top bit of byte 0. -/
def frame_fin (f : List Nat) : Bool := decide (f.getD 0 0 / 128 % 2 = 1)

/-- A sample environment: both adapters turn any payload into a command on
database 0, `cmd_setup` changes nothing, `pool_connect` hands out the number
of the session, the hash and the encoder give fixed-size outputs, and every
allocation, queueing and registration call succeeds. -/
def sample_env : Env :=
  { json_ws_extract := fun _ p =>
      some { database := 0, is_websocket := false, ac := none,
             pub_sub_client := false, args := [p] }
    raw_ws_extract := fun _ p =>
      some { database := 0, is_websocket := false, ac := none,
             pub_sub_client := false, args := [p] }
    cmd_setup := fun x _ => x
    pool_connect := fun _ k => some k
    sha1 := fun _ => List.replicate 20 0
    base64_encode := fun _ => List.replicate 28 65 ++ [10]
    calloc_ok := true
    malloc_ok := true
    evbuffer_new_ok := true
    evbuffer_add_ok := true
    event_add_ok := true }

/-- A sample connection on path `/` with an empty input buffer, no
accumulator, no backend session, an empty output queue and no write
scheduled; its request carries a 24-character key and a host. -/
def sample_client : http_client :=
  { buffer := []
    frame := none
    path := some (cstr "/")
    headers :=
      { sec_websocket_key := some (cstr "dGhlIHNhbXBsZSBub25jZQ==")
        origin := none
        sec_websocket_origin := none
        host := some (cstr "localhost:7379") }
    self_cmd := none
    ws_wbuf := some []
    ws_scheduled_write := false
    fd_closed := false }

/-- A world in which nothing has been asked of the collaborators yet. -/
def empty_world : World :=
  { pool_connects := 0, executed := [], removed := [], sent := [] }

/-- The upgrade request carries what the handshake asks for: a
`Sec-WebSocket-Key` of 16 to 32 characters, a non-empty `Host` and a
non-empty request path. -/
def handshake_input_ok (c : http_client) : Prop :=
  (∃ k, c.headers.sec_websocket_key = some k ∧ 16 ≤ k.length ∧ k.length ≤ 32)
  ∧ (∃ h, c.headers.host = some h ∧ h.length ≠ 0)
  ∧ (∃ p, c.path = some p ∧ p.length ≠ 0)

/-- The header size of the length class the encoder puts a payload of `sz`
bytes in: 2 up to 125 bytes, 4 from 126 to 65536 bytes, 10 above. -/
def encoder_header_size (sz : Nat) : Nat :=
  if sz ≤ 125 then 2 else if sz ≤ 65536 then 4 else 10

/-- The origin a request supplies, in the words of the interface: the `Origin`
header if it is present, otherwise the `Sec-WebSocket-Origin` header. -/
def supplied_origin (h : request_headers) : Option (List Nat) :=
  if h.origin.isSome then h.origin else h.sec_websocket_origin

/-- A request that carries both origin headers, on the sample connection. -/
def sample_client_two_origins : http_client :=
  { sample_client with
    headers :=
      { sample_client.headers with
        origin := some (cstr "http://a.example")
        sec_websocket_origin := some (cstr "http://b.example") } }

/-- A request that carries only the `Sec-WebSocket-Origin` header, on the
sample connection. -/
def sample_client_sec_origin : http_client :=
  { sample_client with
    headers :=
      { sample_client.headers with
        sec_websocket_origin := some (cstr "http://b.example") } }

/-- The origin line of the handshake response as the interface describes it:
`Sec-WebSocket-Origin: <origin>` and a line end when an origin was supplied
(the chosen header is there and is not empty), nothing otherwise. -/
def origin_line (origin : Option (List Nat)) : List Nat :=
  match origin with
  | some o => if o = [] then [] else cstr "Sec-WebSocket-Origin: " ++ o ++ cstr "\r\n"
  | none => []

/-- The handshake response as the interface describes it, line by line. -/
def handshake_wire (accept : List Nat) (origin : Option (List Nat))
    (host path : List Nat) : List Nat :=
  cstr "HTTP/1.1 101 Switching Protocols\r\nUpgrade: websocket\r\nConnection: Upgrade\r\nSec-WebSocket-Accept: "
    ++ accept ++ cstr "\r\n"
    ++ origin_line origin
    ++ cstr "Sec-WebSocket-Location: ws://" ++ host ++ path ++ cstr "\r\n\r\n"

/-! ## The hash and the encoder of the handshake -/

/-- Modelled from the spec: part of SHA-1 (not among the sources). Rotation of
a 32-bit word to the left by `n` bits. -/
def rotl32 (n x : Nat) : Nat := ((x <<< n) ||| (x >>> (32 - n))) % 4294967296

/-- Modelled from the spec: part of SHA-1 (not among the sources). The eight
bytes of a 64-bit count, most significant first. -/
def be64_bytes (n : Nat) : List Nat :=
  [n / 2 ^ 56 % 256, n / 2 ^ 48 % 256, n / 2 ^ 40 % 256, n / 2 ^ 32 % 256,
   n / 2 ^ 24 % 256, n / 2 ^ 16 % 256, n / 2 ^ 8 % 256, n % 256]

/-- Modelled from the spec: part of SHA-1 (not among the sources). The
padding: a byte 0x80, zero bytes up to 56 modulo 64, and the bit
length of the message in 64 bits. -/
def sha1_pad (msg : List Nat) : List Nat :=
  msg ++ [0x80] ++ List.replicate ((119 - msg.length % 64) % 64) 0
    ++ be64_bytes (8 * msg.length)

/-- Modelled from the spec: part of SHA-1 (not among the sources). The first
`n` big-endian 32-bit words of a block. -/
def sha1_words : Nat → List Nat → List Nat
  | 0, _ => []
  | n + 1, b0 :: b1 :: b2 :: b3 :: rest =>
    (((b0 * 256 + b1) * 256 + b2) * 256 + b3) :: sha1_words n rest
  | _ + 1, _ => []

/-- Modelled from the spec: part of SHA-1 (not among the sources). The
message schedule, most recent word first: `n` more words, each the
rotation by one of the XOR of the words 3, 8, 14 and 16 places back. -/
def sha1_extend : Nat → List Nat → List Nat
  | 0, ws => ws
  | n + 1, ws =>
    sha1_extend n
      (rotl32 1 (ws.getD 2 0 ^^^ ws.getD 7 0 ^^^ ws.getD 13 0 ^^^ ws.getD 15 0) :: ws)

/-- Modelled from the spec: part of SHA-1 (not among the sources). The five
working words. -/
structure sha1_state where
  a : Nat
  b : Nat
  c : Nat
  d : Nat
  e : Nat
deriving DecidableEq, Repr

/-- Modelled from the spec: part of SHA-1 (not among the sources). The round
function for round `t`. -/
def sha1_f (t b c d : Nat) : Nat :=
  if t < 20 then (b &&& c) ||| ((4294967295 - b) &&& d)
  else if t < 40 then b ^^^ c ^^^ d
  else if t < 60 then (b &&& c) ||| (b &&& d) ||| (c &&& d)
  else b ^^^ c ^^^ d

/-- Modelled from the spec: part of SHA-1 (not among the sources). The round
constant for round `t`. -/
def sha1_k (t : Nat) : Nat :=
  if t < 20 then 0x5A827999
  else if t < 40 then 0x6ED9EBA1
  else if t < 60 then 0x8F1BBCDC
  else 0xCA62C1D6

/-- Modelled from the spec: part of SHA-1 (not among the sources). One round
with schedule word `w`. -/
def sha1_round (t w : Nat) (s : sha1_state) : sha1_state :=
  { a := (rotl32 5 s.a + sha1_f t s.b s.c s.d + s.e + sha1_k t + w) % 4294967296
    b := s.a
    c := rotl32 30 s.b
    d := s.c
    e := s.d }

/-- Modelled from the spec: part of SHA-1 (not among the sources). The rounds
over the schedule, from round `t` on. -/
def sha1_rounds : Nat → List Nat → sha1_state → sha1_state
  | _, [], s => s
  | t, w :: ws, s => sha1_rounds (t + 1) ws (sha1_round t w s)

/-- Modelled from the spec: part of SHA-1 (not among the sources). The
compression of one 64-byte block into the hash state. -/
def sha1_block (h : sha1_state) (block : List Nat) : sha1_state :=
  let w := (sha1_extend 64 (sha1_words 16 block).reverse).reverse
  let s := sha1_rounds 0 w h
  { a := (h.a + s.a) % 4294967296
    b := (h.b + s.b) % 4294967296
    c := (h.c + s.c) % 4294967296
    d := (h.d + s.d) % 4294967296
    e := (h.e + s.e) % 4294967296 }

/-- Modelled from the spec: part of SHA-1 (not among the sources). The
compression of `n` consecutive blocks. -/
def sha1_blocks : Nat → List Nat → sha1_state → sha1_state
  | 0, _, h => h
  | n + 1, bytes, h => sha1_blocks n (bytes.drop 64) (sha1_block h (bytes.take 64))

/-- Modelled from the spec: part of SHA-1 (not among the sources). The four
bytes of a 32-bit word, most significant first. -/
def word_bytes (x : Nat) : List Nat :=
  [x / 16777216 % 256, x / 65536 % 256, x / 256 % 256, x % 256]

/-- Modelled from the spec: part of SHA-1 (not among the sources). The hash
state after the whole padded message. -/
def sha1_hash (msg : List Nat) : sha1_state :=
  sha1_blocks ((sha1_pad msg).length / 64) (sha1_pad msg)
    { a := 0x67452301, b := 0xEFCDAB89, c := 0x98BADCFE, d := 0x10325476, e := 0xC3D2E1F0 }

/-- Modelled from the spec: the SHA-1 routines (`sha1/sha1.h`) are not among
the sources. This is the 20-byte SHA-1 digest of a byte buffer (RFC 3174),
its five words in order, each most significant byte first: what lines 69-75
leave in `sha1_output`. -/
def sha1 (msg : List Nat) : List Nat :=
  word_bytes (sha1_hash msg).a ++ word_bytes (sha1_hash msg).b ++ word_bytes (sha1_hash msg).c
    ++ word_bytes (sha1_hash msg).d ++ word_bytes (sha1_hash msg).e

/-- Modelled from the spec: part of the base64 encoder (not among the
sources). The base64 character of a 6-bit value. -/
def base64_encode_value (v : Nat) : Nat :=
  (cstr "ABCDEFGHIJKLMNOPQRSTUVWXYZabcdefghijklmnopqrstuvwxyz0123456789+/").getD v 61

/-- Modelled from the spec: the base64 encoder (`b64/cencode.h`) is not among
the sources. This is the base64 text of a byte buffer with `=` padding
(RFC 4648), without any newline. -/
def base64_std : List Nat → List Nat
  | a :: b :: c :: rest =>
    base64_encode_value (a / 4) :: base64_encode_value (a % 4 * 16 + b / 16)
      :: base64_encode_value (b % 16 * 4 + c / 64) :: base64_encode_value (c % 64)
      :: base64_std rest
  | [a, b] =>
    [base64_encode_value (a / 4), base64_encode_value (a % 4 * 16 + b / 16),
     base64_encode_value (b % 16 * 4), 61]
  | [a] => [base64_encode_value (a / 4), base64_encode_value (a % 4 * 16), 61, 61]
  | [] => []

/-- Modelled from the spec: the encoder as the handshake calls it
(`base64_encode_block` then `base64_encode_blockend`), which ends its output
with a newline. -/
def base64_with_newline (data : List Nat) : List Nat := base64_std data ++ [10]

/-! ## Vocabulary of the dispatcher -/

/-- The adapter a request path selects, by its reply function: JSON for the
path `/` and for every path that begins with `/.json`, raw for every other
path that begins with `/.raw`, none otherwise. -/
def adapter_of_path (path : List Nat) : Option formatting_fun :=
  if path = cstr "/" ∨ path.take 6 = cstr "/.json" then some formatting_fun.json_reply
  else if path.take 5 = cstr "/.raw" then some formatting_fun.raw_reply
  else none

/-- The extraction function that goes with a reply function. -/
def extract_of (env : Env) (fmt : formatting_fun) : http_client → List Nat → Option cmd :=
  match fmt with
  | formatting_fun.json_reply => env.json_ws_extract
  | formatting_fun.raw_reply => env.raw_ws_extract

/-- Lines 213-243 of `ws_execute` for a given selection: with no adapter, or
when the extraction gives no command, the result is `-1` and nothing
changes; otherwise the command is set up, tagged, bound to the session of the
connection (a new one when there is none) and sent with the adapter's reply
function. -/
def ws_dispatch (env : Env) (w : World) (c : http_client) (frame : List Nat)
    (adapter : Option formatting_fun) : World × http_client × Int :=
  match adapter with
  | none => (w, c, -1)
  | some fmt =>
    match extract_of env fmt c frame with
    | none => (w, c, -1)
    | some cmd0 =>
      let cmd1 := { env.cmd_setup cmd0 c with is_websocket := true }
      match c.self_cmd with
      | some own =>
        let cmd2 := { cmd1 with ac := own.ac }
        ({ w with sent := w.sent ++ [(cmd2, fmt)] }, c, 0)
      | none =>
        let cmd2 := { cmd1 with
          ac := env.pool_connect cmd1.database w.pool_connects,
          pub_sub_client := true }
        ({ w with pool_connects := w.pool_connects + 1,
                  sent := w.sent ++ [(cmd2, fmt)] },
         { c with self_cmd := some cmd2 }, 0)

/-- Dispatching the payload `p` fails on every connection with request path
`path`: `ws_execute` returns -1 and changes nothing. -/
def dispatch_fails (env : Env) (path : Option (List Nat)) (p : List Nat) : Prop :=
  ∀ (w : World) (c : http_client), c.path = path → ws_execute env w c p = some (w, c, -1)

/-- The messages of a sequence dispatched one after the other on one
connection, each with `ws_execute`; `none` as soon as a dispatch does not
return 0. -/
def dispatch_all (env : Env) : World → http_client → List (List Nat) →
    Option (World × http_client)
  | w, c, [] => some (w, c)
  | w, c, m :: rest =>
    match ws_execute env w c m with
    | some (w2, c2, r) => if r = 0 then dispatch_all env w2 c2 rest else none
    | none => none

/-- The state after three one-byte messages have been dispatched on the
sample connection. -/
def sample_run : World × http_client :=
  (dispatch_all sample_env empty_world sample_client [[1], [2], [3]]).getD
    (empty_world, sample_client)

/-! ## Arithmetic of bytes -/

theorem and_0x7f (b : Nat) : b &&& 0x7f = b % 128 :=
  Nat.and_pow_two_sub_one_eq_mod b 7

theorem and_0xff (b : Nat) : b &&& 0xff = b % 256 :=
  Nat.and_pow_two_sub_one_eq_mod b 8

set_option maxRecDepth 100000 in
theorem and_0x80_small : ∀ r : Fin 256, (r.val &&& 0x80 ≠ 0) ↔ (r.val / 128 % 2 = 1) := by
  decide

theorem and_0x80 (b : Nat) : (b &&& 0x80 ≠ 0) ↔ (b / 128 % 2 = 1) := by
  have h1 : b &&& 0x80 = (b % 256) &&& 0x80 := by
    have h0 : (0xff &&& 0x80 : Nat) = 0x80 := by decide
    rw [← and_0xff b, Nat.and_assoc, h0]
  have h2 := and_0x80_small ⟨b % 256, Nat.mod_lt _ (by decide)⟩
  simp only at h2
  rw [h1, h2]
  omega

/-! ## Slices, masks and the shared tail of the decoder -/

theorem slice_eq_map (l : List Nat) (a n : Nat) (h : a + n ≤ l.length) :
    (l.drop a).take n = (List.range n).map (fun i => l.getD (a + i) 0) := by
  apply List.ext_getElem
  · simp
    omega
  · intro i h1 h2
    simp at h1 h2
    have h3 : a + i < l.length := by omega
    simp [List.getElem_take, List.getD_eq_getElem?_getD, List.getElem?_eq_getElem h3]

theorem apply_mask_eq_map (mask : List Nat) (p : List Nat) (i : Nat) :
    apply_mask mask i p
      = (List.range p.length).map (fun j => p.getD j 0 ^^^ mask.getD ((i + j) % 4) 0) := by
  induction p generalizing i with
  | nil => simp [apply_mask]
  | cons b rest ih =>
    simp only [apply_mask, List.length_cons, List.range_succ_eq_map, List.map_cons,
      List.map_map, ih]
    congr 1
    apply List.map_congr_left
    intro j _
    simp [Nat.add_assoc, Nat.add_comm 1 j]

theorem readBytes_ok (frame : List Nat) (a n : Nat) (h : a + n ≤ frame.length) :
    readBytes frame a n = some ((List.range n).map (fun i => frame.getD (a + i) 0)) := by
  simp [readBytes, h, slice_eq_map frame a n h]

theorem ws_parse_tail_ok (frame : List Nat) (msg : Option ws_msg) (has_mask : Bool)
    (hdr len : Nat) (hsz : frame.length < U64)
    (hfit : hdr + (if has_mask then 4 else 0) + len ≤ frame.length) :
    ws_parse_tail frame msg has_mask hdr len
      = ParseResult.done
          (if frame.getD 0 0 / 128 % 2 = 1 then ws_state.WS_MSG_COMPLETE
           else ws_state.WS_READING)
          (some { payload := acc_payload msg ++ wire_payload frame hdr has_mask len,
                  total_sz := (acc_total msg
                    + (hdr + (if has_mask then 4 else 0) + len)) % U64 }) := by
  have hfin := and_0x80 (frame.getD 0 0)
  unfold U64 at hsz
  cases has_mask with
  | false =>
    simp only [Bool.false_eq_true, if_false, Nat.add_zero] at hfit ⊢
    have hcmp : ¬ (len > (frame.length + U64 - hdr) % U64) := by
      unfold U64; omega
    have hmod : (len + hdr) % U64 = hdr + len := by
      unfold U64; omega
    unfold ws_parse_tail
    simp only [Bool.false_eq_true, if_false, Nat.add_zero, hcmp, readBytes_ok frame hdr len hfit,
      hmod, ws_msg_add, ws_msg_new, wire_payload, hfin]
    cases msg <;> simp [acc_payload, acc_total, Nat.add_assoc] <;> split <;> simp
  | true =>
    simp only [if_true] at hfit ⊢
    have hm : readBytes frame hdr 4
        = some ((List.range 4).map (fun i => frame.getD (hdr + i) 0)) :=
      readBytes_ok frame hdr 4 (by omega)
    have hcmp : ¬ (len > (frame.length + U64 - (hdr + 4)) % U64) := by
      unfold U64; omega
    have hmod : (len + (hdr + 4)) % U64 = hdr + 4 + len := by
      unfold U64; omega
    have hmask : ∀ j, ((List.range 4).map (fun i => frame.getD (hdr + i) 0)).getD (j % 4) 0
        = frame.getD (hdr + j % 4) 0 := by
      intro j
      have h4 : j % 4 < 4 := Nat.mod_lt _ (by decide)
      simp [List.getD_eq_getElem?_getD, List.getElem?_map, List.getElem?_range h4]
    unfold ws_parse_tail
    simp only [if_true, hm, Option.map_some', hcmp, readBytes_ok frame (hdr + 4) len hfit,
      hmod, ws_msg_add, ws_msg_new, wire_payload, hfin, apply_mask_eq_map, List.length_map,
      List.length_range, Nat.zero_add, hmask]
    have hpay : (List.range len).map (fun j =>
          ((List.range len).map (fun i => frame.getD (hdr + 4 + i) 0)).getD j 0
            ^^^ frame.getD (hdr + j % 4) 0)
        = (List.range len).map (fun i =>
          frame.getD (hdr + 4 + i) 0 ^^^ frame.getD (hdr + i % 4) 0) := by
      apply List.map_congr_left
      intro j hj
      have hj2 : j < len := List.mem_range.mp hj
      simp [List.getD_eq_getElem?_getD, List.getElem?_map, List.getElem?_range hj2]
    rw [hpay]
    cases msg <;> simp [acc_payload, acc_total, Nat.add_assoc] <;> split <;> simp

theorem has_mask_eq (b : Nat) :
    decide (b &&& 0x80 ≠ 0) = decide (b / 128 % 2 = 1) := by
  have h := and_0x80 b
  by_cases hb : b / 128 % 2 = 1
  · simp [hb, h.mpr hb]
  · have : ¬ (b &&& 0x80 ≠ 0) := fun hc => hb (h.mp hc)
    simp [hb, this]

theorem mask_size_eq (b : Nat) :
    (if decide (b / 128 % 2 = 1) = true then 4 else 0) = (if b / 128 % 2 = 1 then 4 else 0) := by
  by_cases hb : b / 128 % 2 = 1 <;> simp [hb]

/-! ## The decoder on the 7-bit and 16-bit length classes -/

theorem ws_parse_data_small_class (signedChar : Bool) (frame : List Nat)
    (msg : Option ws_msg) (h n : Nat)
    (h8 : 8 ≤ frame.length) (hsz : frame.length < U64)
    (hcls : (frame.getD 1 0 % 128 = n ∧ n ≤ 125 ∧ h = 2)
      ∨ (frame.getD 1 0 % 128 = 126 ∧ n = 256 * frame.getD 2 0 + frame.getD 3 0 ∧ h = 4))
    (hfit : h + (if frame.getD 1 0 / 128 % 2 = 1 then 4 else 0) + n ≤ frame.length) :
    ws_parse_data signedChar frame msg
      = ParseResult.done
          (if frame.getD 0 0 / 128 % 2 = 1 then ws_state.WS_MSG_COMPLETE
           else ws_state.WS_READING)
          (some { payload := acc_payload msg
                    ++ wire_payload frame h (decide (frame.getD 1 0 / 128 % 2 = 1)) n,
                  total_sz := (acc_total msg
                    + (h + (if frame.getD 1 0 / 128 % 2 = 1 then 4 else 0) + n)) % U64 }) := by
  have h8n : ¬ frame.length < 8 := by omega
  unfold ws_parse_data
  simp only [h8n, if_false, and_0x7f, has_mask_eq]
  rcases hcls with ⟨hn, hle, hh⟩ | ⟨hn, hv, hh⟩
  · subst hh
    have hle2 : frame.getD 1 0 % 128 ≤ 125 := by omega
    rw [if_pos hle2, hn]
    rw [ws_parse_tail_ok frame msg _ 2 n hsz (by rw [mask_size_eq]; exact hfit)]
    rw [mask_size_eq]
  · subst hh
    have hle2 : ¬ frame.getD 1 0 % 128 ≤ 125 := by omega
    rw [if_neg hle2, if_pos hn]
    rw [ws_parse_tail_ok frame msg _ 4 _ hsz
      (by rw [mask_size_eq]; unfold ntohs; rw [← hv]; exact hfit)]
    rw [mask_size_eq]
    unfold ntohs
    rw [← hv]

/-- C1: on a buffer of at least 8 bytes whose length field (the low seven bits
of byte 1) is `n <= 125` with header `h = 2`, or is 126 with `n` the
big-endian value of bytes 2 and 3 and header `h = 4`, and which holds at
least `h + m + n` bytes (`m = 4` when the MASK bit of byte 1 is set, else 0),
`ws_parse_data` appends to the accumulator exactly the `n` payload bytes after
header and mask (XORed with mask byte `i mod 4` when masked, verbatim
otherwise), keeps the bytes accumulated before in front of them, adds
`h + m + n` to the consumed-byte total (in `size_t` arithmetic), and returns
`WS_MSG_COMPLETE` when the FIN bit of byte 0 is set and `WS_READING`
otherwise. -/
theorem ws_parse_data_appends_frame (signedChar : Bool) (frame : List Nat)
    (msg : Option ws_msg) (h n : Nat)
    (h8 : 8 ≤ frame.length) (hsz : frame.length < U64)
    (hcls : (frame.getD 1 0 % 128 = n ∧ n ≤ 125 ∧ h = 2)
      ∨ (frame.getD 1 0 % 128 = 126 ∧ n = 256 * frame.getD 2 0 + frame.getD 3 0 ∧ h = 4))
    (hfit : h + (if frame.getD 1 0 / 128 % 2 = 1 then 4 else 0) + n ≤ frame.length) :
    ws_parse_data signedChar frame msg
      = ParseResult.done
          (if frame.getD 0 0 / 128 % 2 = 1 then ws_state.WS_MSG_COMPLETE
           else ws_state.WS_READING)
          (some { payload := acc_payload msg
                    ++ wire_payload frame h (decide (frame.getD 1 0 / 128 % 2 = 1)) n,
                  total_sz := (acc_total msg
                    + (h + (if frame.getD 1 0 / 128 % 2 = 1 then 4 else 0) + n)) % U64 }) :=
  ws_parse_data_small_class signedChar frame msg h n h8 hsz hcls hfit

/-- Witness for C1: a masked two-byte final frame added to an accumulator
that already holds one byte. -/
theorem ws_parse_data_appends_frame_witness :
    ws_parse_data true [0x81, 0x82, 1, 2, 3, 4, 0x60, 0x60] (some ⟨[7], 9⟩)
      = ParseResult.done ws_state.WS_MSG_COMPLETE (some ⟨[7, 0x61, 0x62], 17⟩) := by
  have h := ws_parse_data_appends_frame true [0x81, 0x82, 1, 2, 3, 4, 0x60, 0x60]
    (some ⟨[7], 9⟩) 2 2 (by decide) (by unfold U64; decide)
    (Or.inl ⟨by decide, by decide, rfl⟩) (by decide)
  rw [h]
  decide

/-! ## Short buffers -/

theorem ws_parse_tail_short (frame : List Nat) (msg : Option ws_msg) (has_mask : Bool)
    (hdr len : Nat) (hsz : frame.length < U64)
    (hoff : hdr + (if has_mask then 4 else 0) ≤ frame.length)
    (hshort : frame.length < hdr + (if has_mask then 4 else 0) + len) :
    ws_parse_tail frame msg has_mask hdr len = ParseResult.done ws_state.WS_READING msg := by
  unfold U64 at hsz
  cases has_mask with
  | false =>
    simp only [Bool.false_eq_true, if_false, Nat.add_zero] at hoff hshort
    have hcmp : len > (frame.length + U64 - hdr) % U64 := by
      unfold U64; omega
    unfold ws_parse_tail
    simp only [Bool.false_eq_true, if_false, Nat.add_zero, hcmp, if_true]
  | true =>
    simp only [if_true] at hoff hshort
    have hm : readBytes frame hdr 4
        = some ((List.range 4).map (fun i => frame.getD (hdr + i) 0)) :=
      readBytes_ok frame hdr 4 (by omega)
    have hcmp : len > (frame.length + U64 - (hdr + 4)) % U64 := by
      unfold U64; omega
    unfold ws_parse_tail
    simp only [if_true, hm, Option.map_some', hcmp]

/-- In the 7-bit and 16-bit length classes a buffer that holds fewer bytes
than the frame at its start needs makes the decoder return `WS_READING` and
leave the accumulator as it was, without a read outside the buffer. -/
theorem ws_parse_data_small_class_short (signedChar : Bool) (frame : List Nat)
    (msg : Option ws_msg) (h n : Nat) (hsz : frame.length < U64)
    (hcls : (frame.getD 1 0 % 128 = n ∧ n ≤ 125 ∧ h = 2)
      ∨ (frame.getD 1 0 % 128 = 126 ∧ n = 256 * frame.getD 2 0 + frame.getD 3 0 ∧ h = 4))
    (hshort : frame.length < h + (if frame.getD 1 0 / 128 % 2 = 1 then 4 else 0) + n) :
    ws_parse_data signedChar frame msg = ParseResult.done ws_state.WS_READING msg := by
  unfold ws_parse_data
  by_cases h8 : frame.length < 8
  · rw [if_pos h8]
  · rw [if_neg h8]
    simp only [and_0x7f, has_mask_eq]
    have hoff : ∀ k, k ≤ 4 →
        k + (if decide (frame.getD 1 0 / 128 % 2 = 1) = true then 4 else 0) ≤ frame.length := by
      intro k hk
      split <;> omega
    rcases hcls with ⟨hn, hle, hh⟩ | ⟨hn, hv, hh⟩
    · subst hh
      have hle2 : frame.getD 1 0 % 128 ≤ 125 := by omega
      rw [if_pos hle2, hn]
      exact ws_parse_tail_short frame msg _ 2 n hsz (hoff 2 (by decide))
        (by rw [mask_size_eq]; exact hshort)
    · subst hh
      have hle2 : ¬ frame.getD 1 0 % 128 ≤ 125 := by omega
      rw [if_neg hle2, if_pos hn]
      exact ws_parse_tail_short frame msg _ 4 _ hsz (hoff 4 (by decide))
        (by rw [mask_size_eq]; unfold ntohs; rw [← hv]; exact hshort)

/-! ## Short buffers in the 64-bit length class -/

/-- C2: the decoder run on an 8-byte buffer that starts a masked frame of the
64-bit length class (byte 1 = 0xFF). The frame needs at least 14 bytes, so the
buffer holds fewer bytes than the frame requires; the decoder does not return
`WS_READING` but reads the length bytes at indices 8 and 9, outside the
buffer. The same happens on a 12-byte buffer, where the length bytes are
present and the mask bytes at indices 12 and 13 are not. -/
theorem ws_parse_data_short_buffer_faults :
    ws_parse_data true [0x81, 0xFF, 0, 0, 0, 0, 0, 0] none = ParseResult.fault
    ∧ ws_parse_data false [0x81, 0xFF, 0, 0, 0, 0, 0, 0] none = ParseResult.fault
    ∧ ws_parse_data true [0x81, 0xFF, 5, 0, 0, 0, 0, 0, 0, 0, 1, 2] none = ParseResult.fault
    ∧ ws_parse_data false [0x81, 0xFF, 5, 0, 0, 0, 0, 0, 0, 0, 1, 2] none
        = ParseResult.fault := by
  decide

/-! ## The custom 64-bit conversions -/

theorem htonl64_byte (p k : Nat) :
    ((p &&& (0xff <<< k)) >>> k) &&& 0xff = p / 2 ^ k % 256 := by
  have h255 : ∀ j, Nat.testBit 0xff j = decide (j < 8) := fun j =>
    Nat.testBit_two_pow_sub_one 8 j
  rw [← Nat.shiftRight_eq_div_pow]
  have h256 : (256 : Nat) = 2 ^ 8 := by norm_num
  rw [h256]
  apply Nat.eq_of_testBit_eq
  intro j
  simp only [Nat.testBit_and, Nat.testBit_shiftRight, Nat.testBit_shiftLeft, h255,
    Nat.testBit_mod_two_pow, Nat.add_sub_cancel_left]
  by_cases hj : j < 8 <;> simp [hj]

theorem webdis_htonl64_eq (p : Nat) :
    webdis_htonl64 p
      = [p / 2 ^ 0 % 256, p / 2 ^ 8 % 256, p / 2 ^ 16 % 256, p / 2 ^ 24 % 256,
         p / 2 ^ 32 % 256, p / 2 ^ 40 % 256, p / 2 ^ 48 % 256, p / 2 ^ 56 % 256] := by
  simp only [webdis_htonl64, htonl64_byte]

theorem char_to_u64_low (signedChar : Bool) (b : Nat) (h : signedChar = true → b < 128) :
    char_to_u64 signedChar b = b := by
  unfold char_to_u64
  cases signedChar with
  | false => simp
  | true =>
    have hb : ¬ 128 ≤ b := by have := h rfl; omega
    simp [hb]

theorem char_to_u64_top (signedChar : Bool) (b : Nat) :
    (char_to_u64 signedChar b <<< 56) % U64 = (b <<< 56) % U64 := by
  unfold char_to_u64 U64
  split
  · simp only [Nat.shiftLeft_eq]
    norm_num
    omega
  · rfl

theorem le_bytes_sum (n : Nat) (hn : n < 18446744073709551616) :
    (n / 1 % 256 * 1 % 18446744073709551616
      + n / 256 % 256 * 256 % 18446744073709551616
      + n / 65536 % 256 * 65536 % 18446744073709551616
      + n / 16777216 % 256 * 16777216 % 18446744073709551616
      + n / 4294967296 % 256 * 4294967296 % 18446744073709551616
      + n / 1099511627776 % 256 * 1099511627776 % 18446744073709551616
      + n / 281474976710656 % 256 * 281474976710656 % 18446744073709551616
      + n / 72057594037927936 % 256 * 72057594037927936 % 18446744073709551616)
        % 18446744073709551616 = n := by
  omega

/-- The two conversions undo each other on a 64-bit value when no conversion
of a byte to `uint64_t` sign-extends into the bits above it: `char` is
unsigned, or each of the seven low-order bytes is below 0x80. -/
theorem webdis_ntohl64_htonl64 (signedChar : Bool) (n : Nat) (hn : n < U64)
    (hlow : signedChar = true → ∀ k, k < 7 → n / 256 ^ k % 256 < 128) :
    webdis_ntohl64 signedChar (webdis_htonl64 n) = n := by
  have h0 := char_to_u64_low signedChar (n / 2 ^ 0 % 256) (fun h => by
    have := hlow h 0 (by decide); norm_num at this ⊢; exact this)
  have h1 := char_to_u64_low signedChar (n / 2 ^ 8 % 256) (fun h => by
    have := hlow h 1 (by decide); norm_num at this ⊢; exact this)
  have h2 := char_to_u64_low signedChar (n / 2 ^ 16 % 256) (fun h => by
    have := hlow h 2 (by decide); norm_num at this ⊢; exact this)
  have h3 := char_to_u64_low signedChar (n / 2 ^ 24 % 256) (fun h => by
    have := hlow h 3 (by decide); norm_num at this ⊢; exact this)
  have h4 := char_to_u64_low signedChar (n / 2 ^ 32 % 256) (fun h => by
    have := hlow h 4 (by decide); norm_num at this ⊢; exact this)
  have h5 := char_to_u64_low signedChar (n / 2 ^ 40 % 256) (fun h => by
    have := hlow h 5 (by decide); norm_num at this ⊢; exact this)
  have h6 := char_to_u64_low signedChar (n / 2 ^ 48 % 256) (fun h => by
    have := hlow h 6 (by decide); norm_num at this ⊢; exact this)
  have h7 := char_to_u64_top signedChar (n / 2 ^ 56 % 256)
  rw [webdis_htonl64_eq]
  unfold webdis_ntohl64
  simp only [List.getD_cons_zero, List.getD_cons_succ]
  rw [h0, h1, h2, h3, h4, h5, h6, h7]
  have e0 : (2:Nat) ^ 0 = 1 := by norm_num
  have e8 : (2:Nat) ^ 8 = 256 := by norm_num
  have e16 : (2:Nat) ^ 16 = 65536 := by norm_num
  have e24 : (2:Nat) ^ 24 = 16777216 := by norm_num
  have e32 : (2:Nat) ^ 32 = 4294967296 := by norm_num
  have e40 : (2:Nat) ^ 40 = 1099511627776 := by norm_num
  have e48 : (2:Nat) ^ 48 = 281474976710656 := by norm_num
  have e56 : (2:Nat) ^ 56 = 72057594037927936 := by norm_num
  have e64 : U64 = 18446744073709551616 := by unfold U64; norm_num
  rw [e64] at hn ⊢
  simp only [Nat.shiftLeft_eq, e0, e8, e16, e24, e32, e40, e48, e56]
  exact le_bytes_sum n hn

/-! ## Encoding followed by decoding -/

theorem wire_payload_append (hd p : List Nat) (h : Nat) (hh : h = hd.length) :
    wire_payload (hd ++ p) h false p.length = p := by
  subst hh
  apply List.ext_getElem
  · simp [wire_payload]
  · intro i h1 h2
    simp [wire_payload, List.getD_eq_getElem?_getD, List.getElem?_append_right,
      List.getElem?_eq_getElem h2]

theorem ws_frame_round_trip_7bit (signedChar : Bool) (p : List Nat)
    (h6 : 6 ≤ p.length) (h125 : p.length ≤ 125) :
    ws_parse_data signedChar (ws_frame p) none
      = ParseResult.done ws_state.WS_MSG_COMPLETE
          (some { payload := p, total_sz := (ws_frame p).length }) := by
  have hf : ws_frame p = [0x81, p.length] ++ p := by simp [ws_frame, h125]
  have hbit : p.length / 128 % 2 ≠ 1 := by omega
  have hmod : p.length % 128 = p.length := by omega
  rw [hf]
  rw [ws_parse_data_small_class signedChar ([0x81, p.length] ++ p) none 2 p.length
    (by simp; omega) (by simp [U64]; omega)
    (Or.inl ⟨by simpa using hmod, h125, rfl⟩)
    (by simp [hbit]; omega)]
  have hw := wire_payload_append [0x81, p.length] p 2 rfl
  simp only [List.cons_append, List.nil_append] at hw
  have hd : decide (p.length / 128 % 2 = 1) = false := by simp [hbit]
  simp only [List.cons_append, List.nil_append, List.getD_cons_zero, List.getD_cons_succ,
    hd, if_neg hbit, hw, acc_payload, acc_total, List.length_cons, U64]
  norm_num
  omega

theorem ws_frame_round_trip_16bit (signedChar : Bool) (p : List Nat)
    (h126 : 126 ≤ p.length) (h65535 : p.length ≤ 65535) :
    ws_parse_data signedChar (ws_frame p) none
      = ParseResult.done ws_state.WS_MSG_COMPLETE
          (some { payload := p, total_sz := (ws_frame p).length }) := by
  have hf : ws_frame p
      = [0x81, 126, p.length % 65536 / 256 % 256, p.length % 65536 % 256] ++ p := by
    have h1 : ¬ p.length ≤ 125 := by omega
    have h2 : p.length ≤ 65536 := by omega
    simp [ws_frame, h1, h2, htons_bytes]
  have hbit : (126 : Nat) / 128 % 2 ≠ 1 := by decide
  rw [hf]
  rw [ws_parse_data_small_class signedChar _ none 4 p.length
    (by simp; omega) (by simp [U64]; omega)
    (Or.inr ⟨by simp, by simp; omega, rfl⟩)
    (by simp; omega)]
  have hw := wire_payload_append
    [0x81, 126, p.length % 65536 / 256 % 256, p.length % 65536 % 256] p 4 rfl
  simp only [List.cons_append, List.nil_append] at hw
  have hd : decide ((126 : Nat) / 128 % 2 = 1) = false := by decide
  simp only [List.cons_append, List.nil_append, List.getD_cons_zero, List.getD_cons_succ,
    hd, if_neg hbit, hw, acc_payload, acc_total, List.length_cons, U64]
  norm_num
  omega

/-- On the bytes alone, a frame of the 64-bit length class decodes to its
payload when the two conversions agree on the size. (The encoder itself
overruns its buffer for such a payload.) -/
theorem ws_frame_round_trip_64bit (signedChar : Bool) (p : List Nat)
    (hbig : 65536 < p.length) (hsz : p.length + 10 < U64)
    (hlow : signedChar = true → ∀ k, k < 7 → p.length / 256 ^ k % 256 < 128) :
    ws_parse_data signedChar (ws_frame p) none
      = ParseResult.done ws_state.WS_MSG_COMPLETE
          (some { payload := p, total_sz := (ws_frame p).length }) := by
  have hf : ws_frame p = ([0x81, 127] ++ webdis_htonl64 p.length) ++ p := by
    have h1 : ¬ p.length ≤ 125 := by omega
    have h2 : ¬ p.length ≤ 65536 := by omega
    simp [ws_frame, h1, h2]
  have hhd : ([0x81, 127] ++ webdis_htonl64 p.length).length = 10 := by
    simp [webdis_htonl64]
  have hlen : (([0x81, 127] ++ webdis_htonl64 p.length) ++ p).length = p.length + 10 := by
    rw [List.length_append, hhd]; omega
  have hrt := webdis_ntohl64_htonl64 signedChar p.length (by unfold U64 at hsz ⊢; omega) hlow
  have hrd : readBytes (([0x81, 127] ++ webdis_htonl64 p.length) ++ p) 2 8
      = some (webdis_htonl64 p.length) := by
    unfold readBytes
    rw [if_pos (by rw [hlen]; omega)]
    simp [webdis_htonl64]
  have htail := ws_parse_tail_ok (([0x81, 127] ++ webdis_htonl64 p.length) ++ p) none false
    10 p.length (by rw [hlen]; exact hsz) (by rw [hlen]; simp; omega)
  have hw := wire_payload_append ([0x81, 127] ++ webdis_htonl64 p.length) p 10 hhd.symm
  have h8 : ¬ (([0x81, 127] ++ webdis_htonl64 p.length) ++ p).length < 8 := by
    rw [hlen]; omega
  have hb1 : (([0x81, 127] ++ webdis_htonl64 p.length) ++ p).getD 1 0 = 127 := by
    simp
  have hb0 : (([0x81, 127] ++ webdis_htonl64 p.length) ++ p).getD 0 0 = 0x81 := by
    simp
  rw [hf]
  unfold ws_parse_data
  rw [if_neg h8]
  simp only [hb1, and_0x7f, has_mask_eq, hrd, hrt]
  rw [if_neg (by decide), if_neg (by decide), if_pos (by decide)]
  have hd : decide ((127 : Nat) / 128 % 2 = 1) = false := by decide
  rw [hd, htail, hw, hb0, hlen]
  simp only [acc_payload, acc_total, U64, List.nil_append]
  unfold U64 at hsz
  norm_num
  omega

theorem ws_frame_65536 (p : List Nat) (h : p.length = 65536) :
    ws_frame p = [0x81, 126, 0, 0] ++ p := by
  simp [ws_frame, htons_bytes, h]

/-- A payload of exactly 65536 bytes is framed with a 16-bit length field of
zero, and the decoder takes the frame for an empty message of 4 bytes. -/
theorem ws_frame_65536_decodes_empty (signedChar : Bool) (p : List Nat)
    (h : p.length = 65536) :
    ws_parse_data signedChar (ws_frame p) none
      = ParseResult.done ws_state.WS_MSG_COMPLETE (some { payload := [], total_sz := 4 }) := by
  rw [ws_frame_65536 p h]
  rw [ws_parse_data_small_class signedChar _ none 4 0 (by simp [h]) (by simp [U64, h])
    (Or.inr ⟨by simp, by simp, rfl⟩) (by simp)]
  simp [acc_payload, acc_total, wire_payload, U64]

/-- With a signed `char`, a size with a low-order byte of 0x80 or more does
not survive the two 64-bit conversions. -/
theorem webdis_ntohl64_htonl64_65664 :
    webdis_ntohl64 true (webdis_htonl64 65664) = 65408
    ∧ webdis_ntohl64 false (webdis_htonl64 65664) = 65664 := by
  decide

/-- C3, counterexample: the frame built for the empty payload is the two bytes
`0x81, 0x00`; the decoder answers `WS_READING` and creates no accumulator,
where the claim has `WS_MSG_COMPLETE` with an empty payload and a consumed
total of 2. -/
theorem ws_frame_round_trip_fails_on_empty_payload :
    ws_parse_data true (ws_frame []) none = ParseResult.done ws_state.WS_READING none
    ∧ ws_parse_data true (ws_frame []) none
        ≠ ParseResult.done ws_state.WS_MSG_COMPLETE
            (some { payload := [], total_sz := (ws_frame []).length }) := by
  decide

theorem ws_frame_short_payload (signedChar : Bool) (p : List Nat) (h5 : p.length ≤ 5) :
    ws_parse_data signedChar (ws_frame p) none
      = ParseResult.done ws_state.WS_READING none := by
  have h125 : p.length ≤ 125 := by omega
  have hf : ws_frame p = [0x81, p.length] ++ p := by simp [ws_frame, h125]
  have hlen : (ws_frame p).length < 8 := by
    rw [hf]
    simp only [List.cons_append, List.nil_append, List.length_cons]
    omega
  unfold ws_parse_data
  rw [if_pos hlen]

/-- C3, amended: for every payload of 6 to 65535 bytes, feeding the frame that
`ws_frame_and_send_response` builds to `ws_parse_data` with no accumulator
yields `WS_MSG_COMPLETE` with an accumulator whose payload is the original
payload and whose consumed-byte total is the length of the encoded frame; for
every payload of 0 to 5 bytes the encoded frame is shorter than 8 bytes and
the decoder answers `WS_READING` and creates no accumulator. -/
theorem ws_frame_round_trip (signedChar : Bool) (p : List Nat) (hmax : p.length ≤ 65535) :
    (6 ≤ p.length →
      ws_parse_data signedChar (ws_frame p) none
        = ParseResult.done ws_state.WS_MSG_COMPLETE
            (some { payload := p, total_sz := (ws_frame p).length }))
    ∧ (p.length ≤ 5 →
      ws_parse_data signedChar (ws_frame p) none
        = ParseResult.done ws_state.WS_READING none) := by
  refine ⟨fun h6 => ?_, ws_frame_short_payload signedChar p⟩
  by_cases h1 : p.length ≤ 125
  · exact ws_frame_round_trip_7bit signedChar p h6 h1
  · exact ws_frame_round_trip_16bit signedChar p (by omega) hmax

/-- Witness for C3 (amended): a payload of six bytes, which round-trips, and a
payload of three bytes, which does not. -/
theorem ws_frame_round_trip_witness :
    ws_parse_data true (ws_frame [104, 101, 108, 108, 111, 33]) none
      = ParseResult.done ws_state.WS_MSG_COMPLETE
          (some { payload := [104, 101, 108, 108, 111, 33],
                  total_sz := (ws_frame [104, 101, 108, 108, 111, 33]).length })
    ∧ ws_parse_data true (ws_frame [104, 105, 33]) none
      = ParseResult.done ws_state.WS_READING none :=
  ⟨(ws_frame_round_trip true [104, 101, 108, 108, 111, 33] (by decide)).1 (by decide),
   (ws_frame_round_trip true [104, 105, 33] (by decide)).2 (by decide)⟩

/-! ## The 64-bit length class of the decoder -/

/-- C4: an unmasked final frame of the 64-bit length class whose eight length
bytes are `00 00 00 00 00 00 00 01`, followed by one payload byte. Read as a
big-endian integer the length is 1 and the 11-byte buffer holds the whole
frame; the decoder takes byte 2 as the least significant byte, finds the
length `2^56`, and answers `WS_READING` without touching the accumulator.
With the length bytes in the opposite order, `01 00 00 00 00 00 00 00`
(big-endian `2^56`), it appends the one byte and consumes 11. -/
theorem ws_parse_data_length64_byte_order :
    ws_parse_data true [0x81, 0x7F, 0, 0, 0, 0, 0, 0, 0, 1, 0x61] none
      = ParseResult.done ws_state.WS_READING none
    ∧ ws_parse_data false [0x81, 0x7F, 0, 0, 0, 0, 0, 0, 0, 1, 0x61] none
      = ParseResult.done ws_state.WS_READING none
    ∧ webdis_ntohl64 false [0, 0, 0, 0, 0, 0, 0, 1] = 2 ^ 56
    ∧ ws_parse_data true [0x81, 0x7F, 1, 0, 0, 0, 0, 0, 0, 0, 0x61] none
      = ParseResult.done ws_state.WS_MSG_COMPLETE (some { payload := [0x61], total_sz := 11 })
    := by
  decide

/-! ## Fragmented messages -/

/-- C5: a message of two fragments, `01 06 "abcdef"` (FIN clear) and
`81 06 "ghijkl"` (FIN set), arriving one at a time on a connection with an
empty input buffer and no accumulator. The first call of `ws_add_data` returns
`WS_READING` with the first payload accumulated and the buffer untrimmed. The
second call decodes the buffer from its start again: it appends the first
fragment a second time, returns `WS_READING`, and dispatches nothing, where
the claim has the message `"abcdefghijkl"` completed and 16 bytes trimmed. -/
theorem ws_add_data_reparses_first_fragment (signedChar : Bool) (env : Env) (w : World)
    (fuel : Nat) :
    ws_add_data signedChar env (fuel + 1) w
        (http_client_read sample_client [0x01, 0x06, 97, 98, 99, 100, 101, 102])
      = some (AddResult.ret ws_state.WS_READING w
          { sample_client with
            buffer := [0x01, 0x06, 97, 98, 99, 100, 101, 102]
            frame := some { payload := [97, 98, 99, 100, 101, 102], total_sz := 8 } })
    ∧ ws_add_data signedChar env (fuel + 1) w
        (http_client_read
          { sample_client with
            buffer := [0x01, 0x06, 97, 98, 99, 100, 101, 102]
            frame := some { payload := [97, 98, 99, 100, 101, 102], total_sz := 8 } }
          [0x81, 0x06, 103, 104, 105, 106, 107, 108])
      = some (AddResult.ret ws_state.WS_READING w
          { sample_client with
            buffer := [0x01, 0x06, 97, 98, 99, 100, 101, 102,
                       0x81, 0x06, 103, 104, 105, 106, 107, 108]
            frame := some { payload := [97, 98, 99, 100, 101, 102,
                                        97, 98, 99, 100, 101, 102],
                            total_sz := 16 } }) := by
  constructor <;> rfl

/-! ## Pipelined messages -/

theorem getD_append_left (f rest : List Nat) (i : Nat) (h : i < f.length) :
    (f ++ rest).getD i 0 = f.getD i 0 := by
  simp [List.getD_eq_getElem?_getD, List.getElem?_append_left h]

theorem wire_payload_append_right (f rest : List Nat) (h : Nat) (masked : Bool) (n : Nat)
    (hfit : h + (if masked then 4 else 0) + n ≤ f.length) :
    wire_payload (f ++ rest) h masked n = wire_payload f h masked n := by
  unfold wire_payload
  apply List.map_congr_left
  intro i hi
  have hi2 : i < n := List.mem_range.mp hi
  cases masked with
  | false =>
    simp only [Bool.false_eq_true, if_false, Nat.add_zero] at hfit ⊢
    exact getD_append_left f rest _ (by omega)
  | true =>
    simp only [if_true] at hfit ⊢
    have h4 : i % 4 < 4 := Nat.mod_lt _ (by decide)
    rw [getD_append_left f rest _ (by omega), getD_append_left f rest _ (by omega)]

theorem ws_parse_data_frame_append (signedChar : Bool) (f rest : List Nat)
    (msg : Option ws_msg) (h n : Nat)
    (hf : is_small_frame f h n) (h8 : 8 ≤ (f ++ rest).length)
    (hsz : (f ++ rest).length < U64) :
    ws_parse_data signedChar (f ++ rest) msg
      = ParseResult.done
          (if frame_fin f = true then ws_state.WS_MSG_COMPLETE else ws_state.WS_READING)
          (some { payload := acc_payload msg ++ wire_payload f h (frame_masked f) n,
                  total_sz := (acc_total msg + f.length) % U64 }) := by
  obtain ⟨hcls, hlen⟩ := hf
  have h2 : 2 ≤ f.length := by
    rcases hcls with ⟨_, _, hh⟩ | ⟨_, _, hh⟩ <;> omega
  have e0 : (f ++ rest).getD 0 0 = f.getD 0 0 := getD_append_left f rest 0 (by omega)
  have e1 : (f ++ rest).getD 1 0 = f.getD 1 0 := getD_append_left f rest 1 (by omega)
  have hcls2 : ((f ++ rest).getD 1 0 % 128 = n ∧ n ≤ 125 ∧ h = 2)
      ∨ ((f ++ rest).getD 1 0 % 128 = 126
          ∧ n = 256 * (f ++ rest).getD 2 0 + (f ++ rest).getD 3 0 ∧ h = 4) := by
    rcases hcls with ⟨ha, hb, hh⟩ | ⟨ha, hb, hh⟩
    · exact Or.inl ⟨by rw [e1]; exact ha, hb, hh⟩
    · have e2 : (f ++ rest).getD 2 0 = f.getD 2 0 := getD_append_left f rest 2 (by omega)
      have e3 : (f ++ rest).getD 3 0 = f.getD 3 0 := getD_append_left f rest 3 (by omega)
      exact Or.inr ⟨by rw [e1]; exact ha, by rw [e2, e3]; exact hb, hh⟩
  have hfit : h + (if frame_masked f = true then 4 else 0) + n ≤ f.length := by
    unfold frame_masked
    rw [mask_size_eq]
    omega
  rw [ws_parse_data_small_class signedChar (f ++ rest) msg h n h8 hsz hcls2
    (by rw [e1, List.length_append]; omega)]
  rw [e0, e1, ← hlen]
  rw [show decide (f.getD 1 0 / 128 % 2 = 1) = frame_masked f from rfl]
  rw [wire_payload_append_right f rest h (frame_masked f) n hfit]
  unfold frame_fin
  by_cases hb : f.getD 0 0 / 128 % 2 = 1 <;> simp [hb]

theorem ws_frame_64bit (p : List Nat) (h : 65536 < p.length) :
    ws_frame p = [0x81, 127] ++ webdis_htonl64 p.length ++ p := by
  have h1 : ¬ p.length ≤ 125 := by omega
  have h2 : ¬ p.length ≤ 65536 := by omega
  simp [ws_frame, h1, h2]

/-- C7: the frame built for a payload of 65536 bytes. The header is
`0x81, 126, 0, 0`: the 16-bit length field is 0, not the number of payload
bytes that follow, since `htons` keeps the low sixteen bits of the size. -/
theorem ws_frame_65536_length_field :
    ws_frame (List.replicate 65536 0) = [0x81, 126, 0, 0] ++ List.replicate 65536 0
    ∧ htons_bytes 65536 = [0, 0]
    ∧ 256 * 0 + 0 ≠ 65536 :=
  ⟨ws_frame_65536 _ (List.length_replicate _ _), by decide, by decide⟩

/-- C8: the frame built for a payload of 65537 bytes (size 0x010001). The
eight length bytes are `01 00 01 00 00 00 00 00`, least significant byte
first, where the big-endian encoding is `00 00 00 00 00 01 00 01`; the
frame has `sz + 10` bytes. -/
theorem ws_frame_65537_length_field :
    ws_frame (List.replicate 65537 0)
      = [0x81, 127, 1, 0, 1, 0, 0, 0, 0, 0] ++ List.replicate 65537 0
    ∧ (ws_frame (List.replicate 65537 0)).length = 65537 + 10
    ∧ webdis_htonl64 65537 ≠ [0, 0, 0, 0, 0, 1, 0, 1] := by
  have hl : (List.replicate 65537 0 : List Nat).length = 65537 := List.length_replicate _ _
  have hb : webdis_htonl64 65537 = [1, 0, 1, 0, 0, 0, 0, 0] := by decide
  have hf := ws_frame_64bit (List.replicate 65537 0) (by rw [hl]; decide)
  rw [hl, hb] at hf
  refine ⟨hf, ?_, by decide⟩
  rw [hf, List.length_append, hl]
  rfl

theorem ws_frame_shape (p : List Nat) :
    ∃ hdr, ws_frame p = hdr ++ p ∧ hdr.length = encoder_header_size p.length
      ∧ hdr.getD 0 0 = 0x81 ∧ hdr.getD 1 0 / 128 % 2 = 0
      ∧ (p.length ≤ 125 → hdr.getD 1 0 = p.length) := by
  unfold ws_frame encoder_header_size
  by_cases h1 : p.length ≤ 125
  · refine ⟨[0x81, p.length], by simp [h1], by simp [h1], rfl, ?_, fun _ => rfl⟩
    simp only [List.getD_cons_succ, List.getD_cons_zero]
    omega
  · by_cases h2 : p.length ≤ 65536
    · exact ⟨0x81 :: 126 :: htons_bytes p.length, by simp [h1, h2],
        by simp [h1, h2, htons_bytes], by simp, by simp, fun h => absurd h h1⟩
    · exact ⟨0x81 :: 127 :: webdis_htonl64 p.length, by simp [h1, h2],
        by simp [h1, h2, webdis_htonl64], by simp, by simp, fun h => absurd h h1⟩

theorem ws_frame_length (p : List Nat) :
    (ws_frame p).length = p.length + encoder_header_size p.length := by
  obtain ⟨hdr, hf, hl, _⟩ := ws_frame_shape p
  rw [hf, List.length_append, hl]
  omega

/-- In the 7-bit and 16-bit length classes the frame fits the `sz + 8` bytes
allocated for it. -/
theorem ws_frame_fits_small (p : List Nat) (h : p.length ≤ 65536) :
    (ws_frame p).length ≤ frame_alloc_sz p.length := by
  rw [ws_frame_length]
  unfold frame_alloc_sz encoder_header_size U64
  split
  · omega
  · omega

theorem ws_frame_and_send_response_small (env : Env) (c : http_client)
    (p q : List Nat) (hs : p.length ≤ 65536) (hq : c.ws_wbuf = some q)
    (hm : env.malloc_ok = true) (ha : env.evbuffer_add_ok = true) :
    ws_frame_and_send_response env c p
      = some (ws_schedule_write env { c with ws_wbuf := some (q ++ ws_frame p) }, 0) := by
  have hfit : ¬ frame_alloc_sz p.length < (ws_frame p).length := by
    have := ws_frame_fits_small p hs
    omega
  simp [ws_frame_and_send_response, hq, hm, ha, hfit]

/-- In the 7-bit and 16-bit length classes (payloads of at most 65536 bytes),
when the allocation and the queueing succeed, `ws_frame_and_send_response`
returns 0 and leaves in the output queue the bytes that were there, unchanged
and in place, followed by the new frame; the frame is a header followed by
the payload bytes verbatim, its first byte is 0x81, the MASK bit of its second
byte is clear, and the header has 2 bytes when `sz <= 125` (the second byte
being `sz`) and 4 bytes otherwise. -/
theorem ws_frame_and_send_response_appends (env : Env) (c : http_client)
    (p q : List Nat) (hs : p.length ≤ 65536) (hq : c.ws_wbuf = some q)
    (hm : env.malloc_ok = true) (ha : env.evbuffer_add_ok = true) :
    ∃ c2 hdr, ws_frame_and_send_response env c p = some (c2, 0)
      ∧ c2.ws_wbuf = some (q ++ (hdr ++ p))
      ∧ hdr.length = encoder_header_size p.length
      ∧ hdr.getD 0 0 = 0x81 ∧ hdr.getD 1 0 / 128 % 2 = 0
      ∧ (p.length ≤ 125 → hdr.getD 1 0 = p.length) := by
  obtain ⟨hdr, hf, hl, h0, h1, h2⟩ := ws_frame_shape p
  refine ⟨ws_schedule_write env { c with ws_wbuf := some (q ++ ws_frame p) }, hdr,
    ws_frame_and_send_response_small env c p q hs hq hm ha, ?_, hl, h0, h1, h2⟩
  rw [hf]
  unfold ws_schedule_write
  split
  · rfl
  · split <;> rfl

/-- A three-byte reply queued behind two bytes already in the output queue of
the sample connection. -/
theorem ws_frame_and_send_response_appends_witness :
    ∃ c2 hdr, ws_frame_and_send_response sample_env
        { sample_client with ws_wbuf := some [1, 2] } [0x4f, 0x4b, 0x21] = some (c2, 0)
      ∧ c2.ws_wbuf = some ([1, 2] ++ (hdr ++ [0x4f, 0x4b, 0x21]))
      ∧ hdr.length = encoder_header_size [0x4f, 0x4b, 0x21].length
      ∧ hdr.getD 0 0 = 0x81 ∧ hdr.getD 1 0 / 128 % 2 = 0
      ∧ ([0x4f, 0x4b, 0x21].length ≤ 125 → hdr.getD 1 0 = [0x4f, 0x4b, 0x21].length) :=
  ws_frame_and_send_response_appends sample_env
    { sample_client with ws_wbuf := some [1, 2] } [0x4f, 0x4b, 0x21] [1, 2] (by decide)
    rfl rfl rfl

/-- In the 64-bit length class (payloads of more than 65536 bytes) the frame
does not fit the `sz + 8` bytes allocated for it: whenever the allocation
succeeds the function writes past the end of its buffer. -/
theorem ws_frame_and_send_response_overrun (env : Env) (c : http_client) (p : List Nat)
    (hbig : 65536 < p.length) (hsz : p.length + 8 < U64) (hm : env.malloc_ok = true) :
    ws_frame_and_send_response env c p = none := by
  have hover : frame_alloc_sz p.length < (ws_frame p).length := by
    rw [ws_frame_length]
    unfold frame_alloc_sz encoder_header_size
    unfold U64 at hsz ⊢
    have h1 : ¬ p.length ≤ 125 := by omega
    have h2 : ¬ p.length ≤ 65536 := by omega
    rw [if_neg h1, if_neg h2]
    omega
  simp [ws_frame_and_send_response, hm, hover]

/-- C9: the reply payload of 65552 bytes on the sample connection, allocation
and queueing succeeding. The frame has a 10-byte header and 65552 payload
bytes, 65562 bytes in all, and the function allocated `sz + 8 = 65560`: it
writes the last two payload bytes past the end of its buffer and hands all
65562 bytes to the output queue, so that what is queued is not defined, where
the claim has the frame end with the payload bytes verbatim. -/
theorem ws_frame_and_send_response_overruns_at_65552 :
    ws_frame_and_send_response sample_env sample_client (List.replicate 65552 0) = none
    ∧ (ws_frame (List.replicate 65552 0)).length = 65562
    ∧ frame_alloc_sz (List.replicate 65552 0).length = 65560 := by
  have hl : (List.replicate 65552 0 : List Nat).length = 65552 := List.length_replicate _ _
  refine ⟨ws_frame_and_send_response_overrun sample_env sample_client _
      (by rw [hl]; decide) (by rw [hl]; unfold U64; decide) rfl, ?_, ?_⟩
  · rw [ws_frame_length, hl]
    decide
  · rw [hl]
    decide

/-! ## The handshake -/

theorem ws_compute_handshake_some (env : Env) (c : http_client) (k : List Nat)
    (hk : c.headers.sec_websocket_key = some k) (h16 : 16 ≤ k.length) (h32 : k.length ≤ 32)
    (hc : env.calloc_ok = true) :
    ∃ accept, ws_compute_handshake env c = some accept := by
  have hr : ¬ (k.length < 16 ∨ k.length > 32) := by omega
  unfold ws_compute_handshake
  simp only [hk, hr, if_false, hc]
  exact ⟨_, rfl⟩

theorem ws_compute_handshake_none (env : Env) (c : http_client)
    (hk : ¬ ∃ k, c.headers.sec_websocket_key = some k ∧ 16 ≤ k.length ∧ k.length ≤ 32) :
    ws_compute_handshake env c = none := by
  unfold ws_compute_handshake
  cases hkey : c.headers.sec_websocket_key with
  | none => rfl
  | some k =>
    have hr : k.length < 16 ∨ k.length > 32 := by
      by_contra hcon
      exact hk ⟨k, hkey, by omega, by omega⟩
    simp only [hr, if_true]

theorem ws_handshake_reply_ok (env : Env) (c : http_client) (hv : handshake_input_ok c)
    (hc : env.calloc_ok = true) (hm : env.malloc_ok = true)
    (hn : env.evbuffer_new_ok = true) (ha : env.evbuffer_add_ok = true) :
    (ws_handshake_reply env c).2 = 0 := by
  obtain ⟨⟨k, hk, h16, h32⟩, ⟨h, hh, hh0⟩, ⟨p, hp, hp0⟩⟩ := hv
  obtain ⟨accept, hacc⟩ := ws_compute_handshake_some env c k hk h16 h32 hc
  have hr : ¬ (h.length = 0 ∨ p.length = 0) := by omega
  unfold ws_handshake_reply
  simp only [hh, hp, hr, if_false, hacc, hm, hn, ha, Bool.not_true, Bool.false_eq_true]

theorem ws_handshake_reply_refused (env : Env) (c : http_client)
    (hv : ¬ handshake_input_ok c) :
    ws_handshake_reply env c = (c, -1) := by
  unfold ws_handshake_reply
  cases hh : c.headers.host with
  | none => rfl
  | some h =>
    cases hp : c.path with
    | none => rfl
    | some p =>
      simp only
      by_cases hr : h.length = 0 ∨ p.length = 0
      · rw [if_pos hr]
      · rw [if_neg hr]
        have hk : ¬ ∃ k, c.headers.sec_websocket_key = some k ∧ 16 ≤ k.length
            ∧ k.length ≤ 32 := by
          intro hk
          exact hv ⟨hk, ⟨h, hh, by omega⟩, ⟨p, hp, by omega⟩⟩
        rw [ws_compute_handshake_none env c hk]

/-- C10: when no allocation and no queueing call fails, `ws_handshake_reply`
refuses the upgrade (returns -1) if and only if the `Sec-WebSocket-Key` header
is missing or not 16 to 32 characters long, or the `Host` header is missing or
empty, or the request path is missing or empty; a refusal leaves the whole
connection as it was (nothing queued, no write scheduled); and every request
with such a key, a non-empty `Host` and a non-empty path is accepted
(returns 0), whatever its origin headers. -/
theorem ws_handshake_reply_refuses_iff (env : Env) (c : http_client)
    (hc : env.calloc_ok = true) (hm : env.malloc_ok = true)
    (hn : env.evbuffer_new_ok = true) (ha : env.evbuffer_add_ok = true) :
    ((ws_handshake_reply env c).2 = -1 ↔ ¬ handshake_input_ok c)
    ∧ (¬ handshake_input_ok c → ws_handshake_reply env c = (c, -1))
    ∧ (handshake_input_ok c → (ws_handshake_reply env c).2 = 0) := by
  refine ⟨⟨?_, ?_⟩, ws_handshake_reply_refused env c,
    fun hv => ws_handshake_reply_ok env c hv hc hm hn ha⟩
  · intro h hv
    rw [ws_handshake_reply_ok env c hv hc hm hn ha] at h
    exact absurd h (by decide)
  · intro hv
    rw [ws_handshake_reply_refused env c hv]

/-- Witness for C10: the sample request, with a key of 24 characters, a host
and the path `/`, and no origin header, is accepted. -/
theorem ws_handshake_reply_refuses_iff_witness :
    ((ws_handshake_reply sample_env sample_client).2 = -1 ↔ ¬ handshake_input_ok sample_client)
    ∧ (¬ handshake_input_ok sample_client →
        ws_handshake_reply sample_env sample_client = (sample_client, -1))
    ∧ (handshake_input_ok sample_client → (ws_handshake_reply sample_env sample_client).2 = 0)
    ∧ handshake_input_ok sample_client :=
  ⟨(ws_handshake_reply_refuses_iff sample_env sample_client rfl rfl rfl rfl).1,
   (ws_handshake_reply_refuses_iff sample_env sample_client rfl rfl rfl rfl).2.1,
   (ws_handshake_reply_refuses_iff sample_env sample_client rfl rfl rfl rfl).2.2,
   ⟨⟨_, rfl, by decide, by decide⟩, ⟨_, rfl, by decide⟩, ⟨_, rfl, by decide⟩⟩⟩

/-! ## The bytes of the handshake response -/

theorem template_head_eq :
    template_start ++ template_accept
      = cstr "HTTP/1.1 101 Switching Protocols\r\nUpgrade: websocket\r\nConnection: Upgrade\r\nSec-WebSocket-Accept: " := by
  decide

theorem template_sec_origin_eq :
    template_sec_origin = cstr "\r\n" ++ cstr "Sec-WebSocket-Origin: " := by
  decide

theorem template_loc_eq :
    template_loc = cstr "\r\n" ++ cstr "Sec-WebSocket-Location: ws://" := by
  decide

theorem handshake_bytes_eq_wire (accept : List Nat) (origin : Option (List Nat))
    (host path : List Nat) :
    handshake_bytes accept origin host path = handshake_wire accept origin host path := by
  unfold handshake_bytes handshake_wire origin_line
  rw [← template_head_eq, template_loc_eq]
  cases origin with
  | none => simp [template_end, List.append_assoc]
  | some o =>
    by_cases ho : o = []
    · subst ho
      simp [template_end, List.append_assoc]
    · have hl : o.length ≠ 0 := fun h => ho (List.length_eq_zero.mp h)
      simp only [ho, hl, if_false, ne_eq, not_false_eq_true, if_true, template_sec_origin_eq,
        template_end, List.append_assoc]

theorem handshake_sz_eq_length (accept : List Nat) (origin : Option (List Nat))
    (host path : List Nat) :
    handshake_sz accept origin host path = (handshake_bytes accept origin host path).length := by
  unfold handshake_sz handshake_bytes
  cases origin with
  | none => simp only [List.length_append, List.length_nil]
  | some o =>
    by_cases hl : o.length = 0
    · simp only [hl, ne_eq, not_true_eq_false, if_false, List.length_append, List.length_nil]
    · simp only [hl, ne_eq, not_false_eq_true, if_true, List.length_append]

theorem ws_schedule_write_wbuf (env : Env) (c : http_client) :
    (ws_schedule_write env c).ws_wbuf = c.ws_wbuf := by
  unfold ws_schedule_write
  split
  · rfl
  · split <;> rfl

theorem ws_handshake_reply_accepted (env : Env) (c : http_client) (accept host path : List Nat)
    (hacc : ws_compute_handshake env c = some accept)
    (hh : c.headers.host = some host) (hh0 : host.length ≠ 0)
    (hp : c.path = some path) (hp0 : path.length ≠ 0)
    (hm : env.malloc_ok = true) (hn : env.evbuffer_new_ok = true)
    (ha : env.evbuffer_add_ok = true) :
    ws_handshake_reply env c
      = (ws_schedule_write env
          { c with ws_wbuf := some (handshake_wire accept (handshake_origin c.headers)
              host path) }, 0) := by
  have hr : ¬ (host.length = 0 ∨ path.length = 0) := by omega
  have htake : (handshake_bytes accept (handshake_origin c.headers) host path).take
      (handshake_sz accept (handshake_origin c.headers) host path)
      = handshake_wire accept (handshake_origin c.headers) host path := by
    rw [handshake_sz_eq_length, List.take_length, handshake_bytes_eq_wire]
  unfold ws_handshake_reply
  simp only [hh, hp, hr, if_false, hacc, hm, hn, ha, Bool.not_true, Bool.false_eq_true, htake]

theorem handshake_origin_eq_supplied (h : request_headers) :
    handshake_origin h = supplied_origin h := by
  unfold handshake_origin supplied_origin
  cases h.origin <;> rfl

/-- C11: for every accepted upgrade request (key of 16 to 32 characters,
non-empty host and path, no allocation or queueing failure) the bytes
`ws_handshake_reply` queues are exactly the status line and the `Upgrade`,
`Connection` and `Sec-WebSocket-Accept: <accept>` lines, then the line
`Sec-WebSocket-Origin: <origin>` when an origin was supplied (the `Origin`
header if present, otherwise the `Sec-WebSocket-Origin` header, and not
empty) and nothing when none was, then `Sec-WebSocket-Location:
ws://<host><path>` and an empty line, every line ended by CR LF; `<accept>`
is the value `ws_compute_handshake` produced; and the response length the
function computes equals the number of bytes it wrote and queued. -/
theorem ws_handshake_reply_queues (env : Env) (c : http_client) (k host path : List Nat)
    (hk : c.headers.sec_websocket_key = some k) (h16 : 16 ≤ k.length) (h32 : k.length ≤ 32)
    (hh : c.headers.host = some host) (hh0 : host.length ≠ 0)
    (hp : c.path = some path) (hp0 : path.length ≠ 0)
    (hc : env.calloc_ok = true) (hm : env.malloc_ok = true)
    (hn : env.evbuffer_new_ok = true) (ha : env.evbuffer_add_ok = true) :
    ∃ accept, ws_compute_handshake env c = some accept
      ∧ (ws_handshake_reply env c).2 = 0
      ∧ (ws_handshake_reply env c).1.ws_wbuf
          = some (handshake_wire accept (supplied_origin c.headers) host path)
      ∧ handshake_sz accept (supplied_origin c.headers) host path
          = (handshake_bytes accept (supplied_origin c.headers) host path).length
      ∧ handshake_sz accept (supplied_origin c.headers) host path
          = (handshake_wire accept (supplied_origin c.headers) host path).length := by
  obtain ⟨accept, hacc⟩ := ws_compute_handshake_some env c k hk h16 h32 hc
  have hrep := ws_handshake_reply_accepted env c accept host path hacc hh hh0 hp hp0 hm hn ha
  rw [handshake_origin_eq_supplied] at hrep
  refine ⟨accept, hacc, ?_, ?_, handshake_sz_eq_length _ _ _ _, ?_⟩
  · rw [hrep]
  · rw [hrep]
    exact ws_schedule_write_wbuf env _
  · rw [handshake_sz_eq_length, handshake_bytes_eq_wire]

/-- Witness for C11: a request that carries both origin headers, on the sample
environment; the `Origin` header is the one supplied. -/
theorem ws_handshake_reply_queues_witness :
    ∃ accept, ws_compute_handshake sample_env sample_client_two_origins = some accept
      ∧ (ws_handshake_reply sample_env sample_client_two_origins).2 = 0
      ∧ (ws_handshake_reply sample_env sample_client_two_origins).1.ws_wbuf
          = some (handshake_wire accept (supplied_origin sample_client_two_origins.headers)
              (cstr "localhost:7379") (cstr "/"))
      ∧ handshake_sz accept (supplied_origin sample_client_two_origins.headers)
            (cstr "localhost:7379") (cstr "/")
          = (handshake_bytes accept (supplied_origin sample_client_two_origins.headers)
              (cstr "localhost:7379") (cstr "/")).length
      ∧ handshake_sz accept (supplied_origin sample_client_two_origins.headers)
            (cstr "localhost:7379") (cstr "/")
          = (handshake_wire accept (supplied_origin sample_client_two_origins.headers)
              (cstr "localhost:7379") (cstr "/")).length :=
  ws_handshake_reply_queues sample_env sample_client_two_origins
    (cstr "dGhlIHNhbXBsZSBub25jZQ==") (cstr "localhost:7379") (cstr "/") rfl (by decide)
    (by decide) rfl (by decide) rfl (by decide) rfl rfl rfl rfl

set_option maxRecDepth 100000 in
/-- The responses queued for three sample requests, byte for byte: with both
origin headers (the `Origin` header is echoed), with the
`Sec-WebSocket-Origin` header only, and with no origin header. The accept
value of the sample environment is 28 letters `A`. -/
theorem ws_handshake_reply_sample_bytes :
    (ws_handshake_reply sample_env sample_client_two_origins).1.ws_wbuf
      = some (cstr "HTTP/1.1 101 Switching Protocols\r\nUpgrade: websocket\r\nConnection: Upgrade\r\nSec-WebSocket-Accept: AAAAAAAAAAAAAAAAAAAAAAAAAAAA\r\nSec-WebSocket-Origin: http://a.example\r\nSec-WebSocket-Location: ws://localhost:7379/\r\n\r\n")
    ∧ (ws_handshake_reply sample_env sample_client_sec_origin).1.ws_wbuf
      = some (cstr "HTTP/1.1 101 Switching Protocols\r\nUpgrade: websocket\r\nConnection: Upgrade\r\nSec-WebSocket-Accept: AAAAAAAAAAAAAAAAAAAAAAAAAAAA\r\nSec-WebSocket-Origin: http://b.example\r\nSec-WebSocket-Location: ws://localhost:7379/\r\n\r\n")
    ∧ (ws_handshake_reply sample_env sample_client).1.ws_wbuf
      = some (cstr "HTTP/1.1 101 Switching Protocols\r\nUpgrade: websocket\r\nConnection: Upgrade\r\nSec-WebSocket-Accept: AAAAAAAAAAAAAAAAAAAAAAAAAAAA\r\nSec-WebSocket-Location: ws://localhost:7379/\r\n\r\n") := by
  decide

/-! ## The accept value -/

theorem base64_std_digest (d0 d1 d2 d3 d4 : Nat) :
    (base64_std (word_bytes d0 ++ word_bytes d1 ++ word_bytes d2 ++ word_bytes d3
        ++ word_bytes d4)).length = 28
    ∧ (base64_std (word_bytes d0 ++ word_bytes d1 ++ word_bytes d2 ++ word_bytes d3
        ++ word_bytes d4)).getD 27 0 = 61 := by
  simp [word_bytes, base64_std]

theorem base64_std_sha1 (msg : List Nat) :
    (base64_std (sha1 msg)).length = 28 ∧ (base64_std (sha1 msg)).getD 27 0 = 61 :=
  base64_std_digest _ _ _ _ _

set_option maxRecDepth 100000 in
set_option maxHeartbeats 4000000 in
theorem rfc6455_accept :
    base64_std (sha1 (cstr "dGhlIHNhbXBsZSBub25jZQ==" ++ magic))
      = cstr "s3pPLMBiTxaQ9kYGzzhZRbK+xOo=" := by
  decide

theorem ws_compute_handshake_value (env : Env) (c : http_client) (k : List Nat)
    (hk : c.headers.sec_websocket_key = some k) (h16 : 16 ≤ k.length) (h32 : k.length ≤ 32)
    (hc : env.calloc_ok = true) (hs : env.sha1 = sha1)
    (hb : env.base64_encode = base64_std ∨ env.base64_encode = base64_with_newline) :
    ws_compute_handshake env c = some (base64_std (sha1 (k ++ magic))) := by
  have hr : ¬ (k.length < 16 ∨ k.length > 32) := by omega
  obtain ⟨hlen, hlast⟩ := base64_std_sha1 (k ++ magic)
  unfold ws_compute_handshake
  simp only [hk, hr, if_false, hc, hs, Bool.not_true, Bool.false_eq_true]
  rcases hb with hb | hb
  · rw [hb, hlen]
    have h27 : (28 : Nat) - 1 = 27 := rfl
    rw [h27, hlast]
    rw [if_neg (by decide)]
    rw [← hlen, List.take_length]
  · rw [hb]
    unfold base64_with_newline
    have hl2 : (base64_std (sha1 (k ++ magic)) ++ [10]).length = 29 := by
      rw [List.length_append, hlen]; rfl
    have hg : (base64_std (sha1 (k ++ magic)) ++ [10]).getD (29 - 1) 0 = 10 := by
      rw [List.getD_eq_getElem?_getD, List.getElem?_append_right (by omega), hlen]
      rfl
    rw [hl2, hg, if_pos rfl]
    have h28 : (29 : Nat) - 1 = (base64_std (sha1 (k ++ magic))).length := by rw [hlen]
    rw [h28, List.take_left]

/-- C12: for every `Sec-WebSocket-Key` of 16 to 32 characters, with SHA-1 and
base64 as the hash and the encoder (the encoder ending its output with a
newline or not), the accept value `ws_compute_handshake` produces is the
base64 text of the 20-byte SHA-1 digest of the key bytes followed by the 36
bytes of the GUID, the trailing newline removed; it depends on the key alone,
it is 28 characters long, and for the key `dGhlIHNhbXBsZSBub25jZQ==` it is
`s3pPLMBiTxaQ9kYGzzhZRbK+xOo=`. -/
theorem ws_compute_handshake_accept (env : Env) (c : http_client) (k : List Nat)
    (hk : c.headers.sec_websocket_key = some k) (h16 : 16 ≤ k.length) (h32 : k.length ≤ 32)
    (hc : env.calloc_ok = true) (hs : env.sha1 = sha1)
    (hb : env.base64_encode = base64_std ∨ env.base64_encode = base64_with_newline) :
    ws_compute_handshake env c = some (base64_std (sha1 (k ++ magic)))
    ∧ (sha1 (k ++ magic)).length = 20
    ∧ magic = cstr "258EAFA5-E914-47DA-95CA-C5AB0DC85B11" ∧ magic.length = 36
    ∧ (base64_std (sha1 (k ++ magic))).length = 28
    ∧ (k = cstr "dGhlIHNhbXBsZSBub25jZQ==" →
        ws_compute_handshake env c = some (cstr "s3pPLMBiTxaQ9kYGzzhZRbK+xOo=")) := by
  have hv := ws_compute_handshake_value env c k hk h16 h32 hc hs hb
  refine ⟨hv, by simp [sha1, word_bytes], rfl, by decide, (base64_std_sha1 _).1, ?_⟩
  intro hkey
  rw [hv, hkey, rfc6455_accept]

/-- Witness for C12: the key of the RFC 6455 example on the sample connection,
with an encoder that ends its output with a newline. -/
theorem ws_compute_handshake_accept_witness :
    ws_compute_handshake
        { sample_env with sha1 := sha1, base64_encode := base64_with_newline } sample_client
      = some (base64_std (sha1 (cstr "dGhlIHNhbXBsZSBub25jZQ==" ++ magic)))
    ∧ (sha1 (cstr "dGhlIHNhbXBsZSBub25jZQ==" ++ magic)).length = 20
    ∧ magic = cstr "258EAFA5-E914-47DA-95CA-C5AB0DC85B11" ∧ magic.length = 36
    ∧ (base64_std (sha1 (cstr "dGhlIHNhbXBsZSBub25jZQ==" ++ magic))).length = 28
    ∧ (cstr "dGhlIHNhbXBsZSBub25jZQ==" = cstr "dGhlIHNhbXBsZSBub25jZQ==" →
        ws_compute_handshake
            { sample_env with sha1 := sha1, base64_encode := base64_with_newline }
            sample_client
          = some (cstr "s3pPLMBiTxaQ9kYGzzhZRbK+xOo=")) :=
  ws_compute_handshake_accept
    { sample_env with sha1 := sha1, base64_encode := base64_with_newline } sample_client
    (cstr "dGhlIHNhbXBsZSBub25jZQ==") rfl (by decide) (by decide) rfl rfl (Or.inr rfl)

/-! ## The selection of the format adapter -/

theorem strncmp_eq_iff (s lit : List Nat) (h0 : 0 ∉ lit) :
    strncmp_eq s lit lit.length = true ↔ s.take lit.length = lit := by
  unfold strncmp_eq
  rw [beq_iff_eq, List.take_append_eq_append_take, List.take_append_eq_append_take,
    List.take_length, Nat.sub_self, List.take_zero, List.append_nil]
  by_cases hl : lit.length ≤ s.length
  · rw [Nat.sub_eq_zero_of_le hl, List.take_zero, List.append_nil]
  · have hpos : lit.length - s.length = (lit.length - s.length - 1) + 1 := by omega
    have h1 : List.take (lit.length - s.length) [0] = [0] := by
      rw [hpos, List.take_succ_cons, List.take_nil]
    have h2 : List.take lit.length s = s := List.take_of_length_le (by omega)
    rw [h1, h2]
    constructor
    · intro h
      exact absurd (h ▸ (List.mem_append_right s (List.mem_singleton.mpr rfl))) h0
    · intro h
      rw [h] at hl
      exact absurd (Nat.le_refl _) hl

theorem path_is_root_iff (path : List Nat) :
    (path.length == 1 && strncmp_eq path (cstr "/") 1) = true ↔ path = cstr "/" := by
  have h := strncmp_eq_iff path (cstr "/") (by decide)
  have hl : (cstr "/").length = 1 := rfl
  rw [hl] at h
  rw [Bool.and_eq_true, beq_iff_eq, h]
  constructor
  · rintro ⟨h1, h2⟩
    rw [← h2, List.take_of_length_le (by omega)]
  · intro hp
    subst hp
    exact ⟨rfl, rfl⟩

theorem path_is_json_iff (path : List Nat) :
    strncmp_eq path (cstr "/.json") 6 = true ↔ path.take 6 = cstr "/.json" :=
  strncmp_eq_iff path (cstr "/.json") (by decide)

theorem path_is_raw_iff (path : List Nat) :
    strncmp_eq path (cstr "/.raw") 5 = true ↔ path.take 5 = cstr "/.raw" :=
  strncmp_eq_iff path (cstr "/.raw") (by decide)

theorem ws_execute_eq_dispatch (env : Env) (w : World) (c : http_client) (frame path : List Nat)
    (hp : c.path = some path) :
    ws_execute env w c frame = some (ws_dispatch env w c frame (adapter_of_path path)) := by
  unfold ws_execute adapter_of_path
  rw [hp]
  simp only [Bool.or_eq_true, path_is_root_iff, path_is_json_iff, path_is_raw_iff]
  by_cases h1 : path = cstr "/" ∨ path.take 6 = cstr "/.json"
  · rw [if_pos h1, if_pos h1]
    simp only [ws_dispatch, extract_of]
    cases env.json_ws_extract c frame with
    | none => rfl
    | some cmd0 =>
      cases hs : c.self_cmd with
      | none => simp only [hs, hp]
      | some own => simp only [hs]
  · rw [if_neg h1, if_neg h1]
    by_cases h2 : path.take 5 = cstr "/.raw"
    · rw [if_pos h2, if_pos h2]
      simp only [ws_dispatch, extract_of]
      cases env.raw_ws_extract c frame with
      | none => rfl
      | some cmd0 =>
        cases hs : c.self_cmd with
        | none => simp only [hs, hp]
        | some own => simp only [hs]
    · rw [if_neg h2, if_neg h2]
      rfl

/-- C13, counterexample: on the path `/.jsonx`, which is neither `/` nor
`/.json`, `ws_execute` selects the JSON adapter: it returns 0 and sends one
command with the JSON reply function, where the claim has a dispatch failure
with no command submitted. The same holds for `/.rawx` and the raw adapter. -/
theorem ws_execute_selects_on_longer_path :
    (∃ w c, ws_execute sample_env empty_world
        { sample_client with path := some (cstr "/.jsonx") } [0x5b, 0x5d] = some (w, c, 0)
      ∧ w.sent.map Prod.snd = [formatting_fun.json_reply])
    ∧ (∃ w c, ws_execute sample_env empty_world
        { sample_client with path := some (cstr "/.rawx") } [0x5b, 0x5d] = some (w, c, 0)
      ∧ w.sent.map Prod.snd = [formatting_fun.raw_reply])
    ∧ cstr "/.jsonx" ≠ cstr "/" ∧ cstr "/.jsonx" ≠ cstr "/.json"
    ∧ cstr "/.rawx" ≠ cstr "/.raw" :=
  ⟨⟨_, _, rfl, rfl⟩, ⟨_, _, rfl, rfl⟩, by decide, by decide, by decide⟩

/-- C13, amended: for every request path, `ws_execute` selects the JSON
adapter exactly when the path is `/` or begins with `/.json`, selects the raw
adapter exactly when the path is not such a path and begins with `/.raw`, and
then goes on with the selected adapter; for every other path it selects no
adapter and returns a dispatch failure, leaving the connection and the
collaborators as they were (no command extracted or submitted). -/
theorem ws_execute_selects (env : Env) (w : World) (c : http_client) (frame path : List Nat)
    (hp : c.path = some path) :
    ws_execute env w c frame = some (ws_dispatch env w c frame (adapter_of_path path))
    ∧ (adapter_of_path path = none → ws_execute env w c frame = some (w, c, -1)) := by
  refine ⟨ws_execute_eq_dispatch env w c frame path hp, fun hn => ?_⟩
  rw [ws_execute_eq_dispatch env w c frame path hp, hn]
  rfl

/-- Witness for C13 (amended): the sample connection, whose path is `/`. -/
theorem ws_execute_selects_witness :
    ws_execute sample_env empty_world sample_client [0x5b, 0x5d]
      = some (ws_dispatch sample_env empty_world sample_client [0x5b, 0x5d]
          (adapter_of_path (cstr "/")))
    ∧ (adapter_of_path (cstr "/") = none →
        ws_execute sample_env empty_world sample_client [0x5b, 0x5d]
          = some (empty_world, sample_client, -1)) :=
  ws_execute_selects sample_env empty_world sample_client [0x5b, 0x5d] (cstr "/") rfl

/-! ## A failed dispatch in the caller loop -/

theorem ws_add_data_failed_step (signedChar : Bool) (env : Env) (fuel : Nat) (w : World)
    (c : http_client) (f rest : List Nat) (h n : Nat)
    (hbuf : c.buffer = f ++ rest) (hacc : c.frame = none)
    (hf : is_small_frame f h n) (h8 : 8 ≤ (f ++ rest).length) (hfin : frame_fin f = true)
    (hsz : (f ++ rest).length < U64)
    (hd : dispatch_fails env c.path (wire_payload f h (frame_masked f) n)) :
    ws_add_data signedChar env (fuel + 1) w c
      = some (AddResult.ret ws_state.WS_ERROR
          { w with executed := w.executed ++ [wire_payload f h (frame_masked f) n],
                   removed := w.removed ++ [f.length] }
          { c with buffer := rest, frame := none }) := by
  have hparse := ws_parse_data_frame_append signedChar f rest none h n hf h8 hsz
  rw [if_pos hfin] at hparse
  simp only [acc_payload, acc_total, List.nil_append, Nat.zero_add] at hparse
  have hmod : f.length % U64 = f.length := by
    apply Nat.mod_eq_of_lt
    rw [List.length_append] at hsz
    omega
  rw [hmod] at hparse
  have hx := hd
    { w with executed := w.executed ++ [wire_payload f h (frame_masked f) n] }
    { c with frame := some { payload := wire_payload f h (frame_masked f) n,
                             total_sz := f.length } } rfl
  rw [hbuf] at hx
  rw [ws_add_data, hbuf, hacc, hparse]
  simp only [if_true, hx]
  simp [http_client_remove_data]

theorem sample_env_dispatch_fails (p : List Nat) :
    dispatch_fails sample_env (some (cstr "/nope")) p := by
  intro w c hc
  rw [ws_execute_eq_dispatch sample_env w c p (cstr "/nope") hc]
  rfl

/-- C14, counterexample: two complete messages `81 06 "abcdef"` and
`81 06 "ghijkl"` in one buffer on a connection whose path `/nope` selects no
adapter, so that every dispatch fails. `ws_add_data` drops the first message
(16 - 8 bytes stay, no accumulator) and returns `WS_ERROR`; the second message
is neither decoded nor dispatched. -/
theorem ws_add_data_stops_at_failed_dispatch :
    ∃ w c, ws_add_data true sample_env 10 empty_world
        { sample_client with
          path := some (cstr "/nope")
          buffer := [0x81, 0x06, 97, 98, 99, 100, 101, 102,
                     0x81, 0x06, 103, 104, 105, 106, 107, 108] }
        = some (AddResult.ret ws_state.WS_ERROR w c)
      ∧ w.executed = [[97, 98, 99, 100, 101, 102]] ∧ w.removed = [8]
      ∧ c.buffer = [0x81, 0x06, 103, 104, 105, 106, 107, 108] ∧ c.frame = none :=
  ⟨_, _, rfl, rfl, rfl, rfl, rfl⟩

/-- C14, amended: a dispatch failure ends the call of `ws_add_data`: for every
input buffer of at least 8 bytes that starts with a complete logical message
(a FIN frame of the 7-bit or 16-bit length class, no accumulator present)
whose dispatch fails, `ws_add_data` hands the payload to the dispatcher, drops
the message (trimming exactly its bytes and discarding its accumulator) and
returns `WS_ERROR`; what follows it in the buffer, such as a second complete
message, stays there and is neither decoded nor dispatched by this call. -/
theorem ws_add_data_dispatch_failure (signedChar : Bool) (env : Env) (fuel : Nat) (w : World)
    (c : http_client) (f rest : List Nat) (h n : Nat)
    (hbuf : c.buffer = f ++ rest) (hacc : c.frame = none)
    (hf : is_small_frame f h n) (h8 : 8 ≤ (f ++ rest).length) (hfin : frame_fin f = true)
    (hsz : (f ++ rest).length < U64)
    (hd : dispatch_fails env c.path (wire_payload f h (frame_masked f) n)) :
    ws_add_data signedChar env (fuel + 1) w c
      = some (AddResult.ret ws_state.WS_ERROR
          { w with executed := w.executed ++ [wire_payload f h (frame_masked f) n],
                   removed := w.removed ++ [f.length] }
          { c with buffer := rest, frame := none }) :=
  ws_add_data_failed_step signedChar env fuel w c f rest h n hbuf hacc hf h8 hfin hsz hd

/-- Witness for C14 (amended): a masked one-byte message of 7 bytes followed
by a six-byte message, on the path `/nope`. -/
theorem ws_add_data_dispatch_failure_witness :
    ws_add_data true sample_env (0 + 1) empty_world
        { sample_client with
          path := some (cstr "/nope")
          buffer := [0x81, 0x81, 0, 0, 0, 0, 0x61]
            ++ [0x81, 0x06, 103, 104, 105, 106, 107, 108] }
      = some (AddResult.ret ws_state.WS_ERROR
          { empty_world with
            executed := empty_world.executed
              ++ [wire_payload [0x81, 0x81, 0, 0, 0, 0, 0x61] 2
                    (frame_masked [0x81, 0x81, 0, 0, 0, 0, 0x61]) 1],
            removed := empty_world.removed
              ++ [[0x81, 0x81, 0, 0, 0, 0, 0x61].length] }
          { ({ sample_client with
               path := some (cstr "/nope")
               buffer := [0x81, 0x81, 0, 0, 0, 0, 0x61]
                 ++ [0x81, 0x06, 103, 104, 105, 106, 107, 108] } : http_client) with
            buffer := [0x81, 0x06, 103, 104, 105, 106, 107, 108], frame := none }) :=
  ws_add_data_dispatch_failure true sample_env 0 empty_world
    { sample_client with
      path := some (cstr "/nope")
      buffer := [0x81, 0x81, 0, 0, 0, 0, 0x61]
        ++ [0x81, 0x06, 103, 104, 105, 106, 107, 108] }
    [0x81, 0x81, 0, 0, 0, 0, 0x61] [0x81, 0x06, 103, 104, 105, 106, 107, 108] 2 1
    rfl rfl ⟨Or.inl ⟨by decide, by decide, rfl⟩, by decide⟩ (by decide) (by decide)
    (by unfold U64; decide) (sample_env_dispatch_fails _)

/-! ## The write scheduler -/

theorem ws_can_write_flag (env : Env) (c : http_client) (ret : Int) (rest : List Nat)
    (hreg : env.event_add_ok = true) (hret : 0 ≤ ret) :
    (ws_can_write env c ret rest).ws_scheduled_write = true ↔ (0 < ret ∧ rest ≠ []) := by
  have hneg : ¬ ret < 0 := by omega
  unfold ws_can_write
  simp only [hneg, if_false]
  by_cases hpos : ret > 0 ∧ rest.length > 0
  · rw [if_pos hpos]
    have hne : rest ≠ [] := by
      intro h
      rw [h] at hpos
      exact absurd hpos.2 (by decide)
    simp [ws_schedule_write, hreg, hpos.1, hne]
  · rw [if_neg hpos]
    simp only [Bool.false_eq_true, false_iff]
    rintro ⟨h1, h2⟩
    exact hpos ⟨h1, List.length_pos.mpr h2⟩

/-- C15, counterexample: a write attempt that is not an error and writes
nothing (`evbuffer_write` returns 0) while three bytes are queued. After
`ws_can_write` the queue is non-empty and the write-scheduled flag is clear,
although registration would succeed. -/
theorem ws_can_write_zero_bytes_written :
    (ws_can_write sample_env { sample_client with ws_wbuf := some [1, 2, 3] } 0
        [1, 2, 3]).ws_scheduled_write = false
    ∧ (ws_can_write sample_env { sample_client with ws_wbuf := some [1, 2, 3] } 0
        [1, 2, 3]).ws_wbuf = some [1, 2, 3]
    ∧ sample_env.event_add_ok = true := by
  decide

/-- C15, amended: for every connection state and every outcome of the write
attempt made by `ws_can_write` that is not an error, and when registration
itself succeeds, after `ws_can_write` the write-scheduled flag is set if and
only if at least one byte was written and the output queue is still
non-empty; in particular a fully drained queue leaves the scheduler idle. -/
theorem ws_can_write_registration (env : Env) (c : http_client) (ret : Int)
    (rest : List Nat) (hreg : env.event_add_ok = true) (hret : 0 ≤ ret) :
    ((ws_can_write env c ret rest).ws_scheduled_write = true ↔ (0 < ret ∧ rest ≠ []))
    ∧ (rest = [] → (ws_can_write env c ret rest).ws_scheduled_write = false) := by
  have h := ws_can_write_flag env c ret rest hreg hret
  refine ⟨h, fun he => ?_⟩
  cases hb : (ws_can_write env c ret rest).ws_scheduled_write with
  | false => rfl
  | true => exact absurd he (h.mp hb).2

/-- Witness for C15 (amended): two of five queued bytes written. -/
theorem ws_can_write_registration_witness :
    ((ws_can_write sample_env sample_client 2 [3, 4, 5]).ws_scheduled_write = true
      ↔ ((0 : Int) < 2 ∧ [3, 4, 5] ≠ ([] : List Nat)))
    ∧ ([3, 4, 5] = ([] : List Nat) →
        (ws_can_write sample_env sample_client 2 [3, 4, 5]).ws_scheduled_write = false) :=
  ws_can_write_registration sample_env sample_client 2 [3, 4, 5] rfl (by decide)

/-! ## The decoder called twice, and the states it returns -/

theorem ws_parse_tail_shape (frame : List Nat) (has_mask : Bool) (hdr len : Nat) :
    (∀ msg, ws_parse_tail frame msg has_mask hdr len = ParseResult.fault)
    ∨ (∀ msg, ws_parse_tail frame msg has_mask hdr len
        = ParseResult.done ws_state.WS_READING msg)
    ∨ (∃ st bytes d, (st = ws_state.WS_READING ∨ st = ws_state.WS_MSG_COMPLETE)
        ∧ ∀ msg, ws_parse_tail frame msg has_mask hdr len
          = ParseResult.done st
              (some { payload := acc_payload msg ++ bytes,
                      total_sz := (acc_total msg + d) % U64 })) := by
  unfold ws_parse_tail
  simp only
  cases hmask : (if has_mask = true then Option.map some (readBytes frame hdr 4)
      else some none) with
  | none => exact Or.inl (fun _ => rfl)
  | some mask =>
    simp only
    by_cases hcmp : len > (frame.length + U64 - (hdr + if has_mask = true then 4 else 0)) % U64
    · exact Or.inr (Or.inl (fun _ => by rw [if_pos hcmp]))
    · cases hp : readBytes frame (hdr + if has_mask = true then 4 else 0) len with
      | none => exact Or.inl (fun _ => by rw [if_neg hcmp])
      | some p =>
        right; right
        clear hmask
        by_cases hfin : frame.getD 0 0 &&& 0x80 ≠ 0
        · cases mask with
          | none =>
            refine ⟨ws_state.WS_MSG_COMPLETE, p,
              (len + (hdr + if has_mask = true then 4 else 0)) % U64, Or.inr rfl, ?_⟩
            intro msg
            rw [if_neg hcmp]
            simp only [if_pos hfin, ws_msg_add]
            cases msg <;> rfl
          | some k =>
            refine ⟨ws_state.WS_MSG_COMPLETE, apply_mask k 0 p,
              (len + (hdr + if has_mask = true then 4 else 0)) % U64, Or.inr rfl, ?_⟩
            intro msg
            rw [if_neg hcmp]
            simp only [if_pos hfin, ws_msg_add]
            cases msg <;> rfl
        · cases mask with
          | none =>
            refine ⟨ws_state.WS_READING, p,
              (len + (hdr + if has_mask = true then 4 else 0)) % U64, Or.inl rfl, ?_⟩
            intro msg
            rw [if_neg hcmp]
            simp only [if_neg hfin, ws_msg_add]
            cases msg <;> rfl
          | some k =>
            refine ⟨ws_state.WS_READING, apply_mask k 0 p,
              (len + (hdr + if has_mask = true then 4 else 0)) % U64, Or.inl rfl, ?_⟩
            intro msg
            rw [if_neg hcmp]
            simp only [if_neg hfin, ws_msg_add]
            cases msg <;> rfl

theorem length_field_cases (b : Nat) :
    b &&& 0x7f ≤ 125 ∨ b &&& 0x7f = 126 ∨ b &&& 0x7f = 127 := by
  rw [and_0x7f]
  omega

theorem ws_parse_data_shape (signedChar : Bool) (frame : List Nat) :
    (∀ msg, ws_parse_data signedChar frame msg = ParseResult.fault)
    ∨ (∀ msg, ws_parse_data signedChar frame msg = ParseResult.done ws_state.WS_READING msg)
    ∨ (∃ st bytes d, (st = ws_state.WS_READING ∨ st = ws_state.WS_MSG_COMPLETE)
        ∧ ∀ msg, ws_parse_data signedChar frame msg
          = ParseResult.done st
              (some { payload := acc_payload msg ++ bytes,
                      total_sz := (acc_total msg + d) % U64 })) := by
  unfold ws_parse_data
  by_cases h8 : frame.length < 8
  · exact Or.inr (Or.inl (fun _ => by rw [if_pos h8]))
  · simp only [if_neg h8]
    rcases length_field_cases (frame.getD 1 0) with h | h | h
    · simp only [if_pos h]
      exact ws_parse_tail_shape frame _ 2 _
    · have h1 : ¬ frame.getD 1 0 &&& 0x7f ≤ 125 := by omega
      simp only [if_neg h1, if_pos h]
      exact ws_parse_tail_shape frame _ 4 _
    · have h1 : ¬ frame.getD 1 0 &&& 0x7f ≤ 125 := by omega
      have h2 : ¬ frame.getD 1 0 &&& 0x7f = 126 := by omega
      simp only [if_neg h1, if_neg h2, if_pos h]
      cases hr : readBytes frame 2 8 with
      | none => exact Or.inl (fun _ => rfl)
      | some lenBytes => exact ws_parse_tail_shape frame _ 10 _

theorem ws_parse_data_again (signedChar : Bool) (frame : List Nat)
    (msg : Option ws_msg) (st : ws_state) (m1 : Option ws_msg)
    (h1 : ws_parse_data signedChar frame msg = ParseResult.done st m1) :
    ∃ m2, ws_parse_data signedChar frame m1 = ParseResult.done st m2
      ∧ ((m1 = msg ∧ m2 = m1)
        ∨ ∃ bytes d,
            m1 = some { payload := acc_payload msg ++ bytes,
                        total_sz := (acc_total msg + d) % U64 }
            ∧ m2 = some { payload := acc_payload m1 ++ bytes,
                          total_sz := (acc_total m1 + d) % U64 }) := by
  rcases ws_parse_data_shape signedChar frame with hF | hR | ⟨st2, bytes, d, _, hA⟩
  · rw [hF msg] at h1
    exact absurd h1 (by simp)
  · rw [hR msg] at h1
    simp only [ParseResult.done.injEq] at h1
    obtain ⟨hs, hm⟩ := h1
    subst hs; subst hm
    exact ⟨msg, hR msg, Or.inl ⟨rfl, rfl⟩⟩
  · rw [hA msg] at h1
    simp only [ParseResult.done.injEq] at h1
    obtain ⟨hs, hm⟩ := h1
    subst hs
    exact ⟨_, hA m1, Or.inr ⟨bytes, d, hm.symm, rfl⟩⟩

/-- C16, counterexample: the buffer `81 02 61 62 00 00 00 00` with no
accumulator. The first call returns `WS_MSG_COMPLETE` with payload `ab` and a
consumed total of 4; the second call, on the same buffer and with that
accumulator, returns `WS_MSG_COMPLETE` with payload `abab` and a total of 8:
payload and total are not what they were after the first call. -/
theorem ws_parse_data_second_call_appends_again :
    ws_parse_data true [0x81, 0x02, 0x61, 0x62, 0, 0, 0, 0] none
      = ParseResult.done ws_state.WS_MSG_COMPLETE
          (some { payload := [0x61, 0x62], total_sz := 4 })
    ∧ ws_parse_data true [0x81, 0x02, 0x61, 0x62, 0, 0, 0, 0]
        (some { payload := [0x61, 0x62], total_sz := 4 })
      = ParseResult.done ws_state.WS_MSG_COMPLETE
          (some { payload := [0x61, 0x62, 0x61, 0x62], total_sz := 8 })
    ∧ ws_parse_data true [0x81, 0x02, 0x61, 0x62, 0, 0, 0, 0]
        (some { payload := [0x61, 0x62], total_sz := 4 })
      ≠ ParseResult.done ws_state.WS_MSG_COMPLETE
          (some { payload := [0x61, 0x62], total_sz := 4 }) := by
  decide

/-- C16, amended: for every input buffer and every accumulator state on which
the first call of `ws_parse_data` returns, a second call on the same buffer,
with the accumulator as the first call left it, returns the same state as the
first; when the first call left the accumulator as it found it (the buffer
does not yet hold the frame at its start), the second call leaves payload and
consumed total equal to what they were after the first; when the first call
appended a frame's payload and added its size, the second call appends the
same bytes and adds the same size once more. -/
theorem ws_parse_data_second_call (signedChar : Bool) (frame : List Nat)
    (msg : Option ws_msg) (st : ws_state) (m1 : Option ws_msg)
    (h1 : ws_parse_data signedChar frame msg = ParseResult.done st m1) :
    ∃ m2, ws_parse_data signedChar frame m1 = ParseResult.done st m2
      ∧ ((m1 = msg ∧ m2 = m1)
        ∨ ∃ bytes d,
            m1 = some { payload := acc_payload msg ++ bytes,
                        total_sz := (acc_total msg + d) % U64 }
            ∧ m2 = some { payload := acc_payload m1 ++ bytes,
                          total_sz := (acc_total m1 + d) % U64 }) :=
  ws_parse_data_again signedChar frame msg st m1 h1

/-- Witness for C16 (amended): a buffer of seven bytes, too short to be
decoded, with an accumulator in place. -/
theorem ws_parse_data_second_call_witness :
    ∃ m2, ws_parse_data true [0x81, 0x81, 0, 0, 0, 0, 0x61]
        (some { payload := [1], total_sz := 8 })
        = ParseResult.done ws_state.WS_READING m2
      ∧ ((some { payload := [1], total_sz := 8 }
            = (some { payload := [1], total_sz := 8 } : Option ws_msg)
          ∧ m2 = some { payload := [1], total_sz := 8 })
        ∨ ∃ bytes d,
            (some { payload := [1], total_sz := 8 } : Option ws_msg)
              = some { payload := acc_payload (some { payload := [1], total_sz := 8 })
                         ++ bytes,
                       total_sz := (acc_total (some { payload := [1], total_sz := 8 }) + d)
                         % U64 }
            ∧ m2 = some { payload := acc_payload (some { payload := [1], total_sz := 8 })
                            ++ bytes,
                          total_sz := (acc_total (some { payload := [1], total_sz := 8 }) + d)
                            % U64 }) :=
  ws_parse_data_second_call true [0x81, 0x81, 0, 0, 0, 0, 0x61]
    (some { payload := [1], total_sz := 8 }) ws_state.WS_READING
    (some { payload := [1], total_sz := 8 }) rfl

theorem ws_parse_tail_no_fault (frame : List Nat) (msg : Option ws_msg) (has_mask : Bool)
    (hdr len : Nat) (hsz : frame.length < U64)
    (hoff : hdr + (if has_mask then 4 else 0) ≤ frame.length) :
    ws_parse_tail frame msg has_mask hdr len ≠ ParseResult.fault := by
  by_cases hfit : hdr + (if has_mask then 4 else 0) + len ≤ frame.length
  · rw [ws_parse_tail_ok frame msg has_mask hdr len hsz hfit]
    simp
  · rw [ws_parse_tail_short frame msg has_mask hdr len hsz hoff (by omega)]
    simp

theorem ws_parse_data_no_fault (signedChar : Bool) (frame : List Nat) (msg : Option ws_msg)
    (hsz : frame.length < U64)
    (hdom : frame.length < 8 ∨ 14 ≤ frame.length ∨ frame.getD 1 0 % 128 ≠ 127) :
    ws_parse_data signedChar frame msg ≠ ParseResult.fault := by
  unfold ws_parse_data
  by_cases h8 : frame.length < 8
  · rw [if_pos h8]
    simp
  · simp only [if_neg h8]
    have hoff : ∀ (b : Bool) (k : Nat), k ≤ 4 → k + (if b = true then 4 else 0) ≤ frame.length := by
      intro b k hk
      split <;> omega
    rcases length_field_cases (frame.getD 1 0) with h | h | h
    · simp only [if_pos h]
      exact ws_parse_tail_no_fault frame msg _ 2 _ hsz (hoff _ 2 (by decide))
    · have h1 : ¬ frame.getD 1 0 &&& 0x7f ≤ 125 := by omega
      simp only [if_neg h1, if_pos h]
      exact ws_parse_tail_no_fault frame msg _ 4 _ hsz (hoff _ 4 (by decide))
    · have h1 : ¬ frame.getD 1 0 &&& 0x7f ≤ 125 := by omega
      have h2 : ¬ frame.getD 1 0 &&& 0x7f = 126 := by omega
      have h14 : 14 ≤ frame.length := by
        rw [and_0x7f] at h
        rcases hdom with hd | hd | hd
        · exact absurd hd h8
        · exact hd
        · exact absurd h hd
      simp only [if_neg h1, if_neg h2, if_pos h]
      rw [readBytes_ok frame 2 8 (by omega)]
      simp only
      exact ws_parse_tail_no_fault frame msg _ 10 _ hsz (by split <;> omega)

theorem ws_parse_data_states (signedChar : Bool) (frame : List Nat) (msg : Option ws_msg) :
    ws_parse_data signedChar frame msg = ParseResult.fault
    ∨ ∃ m, ws_parse_data signedChar frame msg = ParseResult.done ws_state.WS_READING m
        ∨ ws_parse_data signedChar frame msg = ParseResult.done ws_state.WS_MSG_COMPLETE m := by
  rcases ws_parse_data_shape signedChar frame with hF | hR | ⟨st, bytes, d, hst, hA⟩
  · exact Or.inl (hF msg)
  · exact Or.inr ⟨msg, Or.inl (hR msg)⟩
  · rcases hst with hs | hs
    · subst hs
      exact Or.inr ⟨_, Or.inl (hA msg)⟩
    · subst hs
      exact Or.inr ⟨_, Or.inr (hA msg)⟩

/-- For every input buffer and every accumulator state `ws_parse_data` never
returns `WS_ERROR`: the 7-bit length field is at most 125, equal to 126 or
equal to 127, so the `WS_ERROR` branch is not reached; every state it returns
is `WS_READING` or `WS_MSG_COMPLETE`; and it does return one of the two on
every buffer of fewer than 8 bytes, on every buffer of at least 14 bytes and
on every buffer whose length field is not 127. On the remaining buffers, of 8
to 13 bytes in the 64-bit length class, it can read outside the buffer. -/
theorem ws_parse_data_never_error (signedChar : Bool) (frame : List Nat)
    (msg : Option ws_msg) :
    (frame.getD 1 0 &&& 0x7f ≤ 125 ∨ frame.getD 1 0 &&& 0x7f = 126
      ∨ frame.getD 1 0 &&& 0x7f = 127)
    ∧ (∀ m, ws_parse_data signedChar frame msg ≠ ParseResult.done ws_state.WS_ERROR m)
    ∧ (ws_parse_data signedChar frame msg = ParseResult.fault
      ∨ ∃ m, ws_parse_data signedChar frame msg = ParseResult.done ws_state.WS_READING m
          ∨ ws_parse_data signedChar frame msg
              = ParseResult.done ws_state.WS_MSG_COMPLETE m)
    ∧ (frame.length < U64 →
        (frame.length < 8 ∨ 14 ≤ frame.length ∨ frame.getD 1 0 % 128 ≠ 127) →
        ∃ m, ws_parse_data signedChar frame msg = ParseResult.done ws_state.WS_READING m
          ∨ ws_parse_data signedChar frame msg
              = ParseResult.done ws_state.WS_MSG_COMPLETE m) := by
  have hst := ws_parse_data_states signedChar frame msg
  refine ⟨length_field_cases _, ?_, hst, ?_⟩
  · intro m hm
    rcases hst with h | ⟨m2, h | h⟩
    · rw [h] at hm; exact absurd hm (by simp)
    · rw [h] at hm; exact absurd hm (by simp)
    · rw [h] at hm; exact absurd hm (by simp)
  · intro hsz hdom
    rcases hst with h | h
    · exact absurd h (ws_parse_data_no_fault signedChar frame msg hsz hdom)
    · exact h

/-- A buffer of fourteen bytes in the 64-bit length class: the decoder returns
a state. -/
theorem ws_parse_data_never_error_witness :
    ∃ m, ws_parse_data true [0x81, 0xFF, 0, 0, 0, 0, 0, 0, 0, 0, 1, 2, 3, 4] none
        = ParseResult.done ws_state.WS_READING m
      ∨ ws_parse_data true [0x81, 0xFF, 0, 0, 0, 0, 0, 0, 0, 0, 1, 2, 3, 4] none
        = ParseResult.done ws_state.WS_MSG_COMPLETE m :=
  (ws_parse_data_never_error true [0x81, 0xFF, 0, 0, 0, 0, 0, 0, 0, 0, 1, 2, 3, 4] none).2.2.2
    (by unfold U64; decide) (Or.inr (Or.inl (by decide)))

/-- C18: the decoder run on the 8-byte buffer `81 FF 00 00 00 00 00 00` and on
the 9-byte buffer `81 7F 00 00 00 00 00 00 00`, both the start of a frame of
the 64-bit length class. The run reads the length bytes up to index 9, outside
the buffer, and so returns neither `WS_READING` nor `WS_MSG_COMPLETE`: its
behaviour is undefined, where the claim has one of the two states returned
for every input. -/
theorem ws_parse_data_returns_no_state :
    ws_parse_data true [0x81, 0xFF, 0, 0, 0, 0, 0, 0] none = ParseResult.fault
    ∧ (¬ ∃ m, ws_parse_data true [0x81, 0xFF, 0, 0, 0, 0, 0, 0] none
          = ParseResult.done ws_state.WS_READING m
        ∨ ws_parse_data true [0x81, 0xFF, 0, 0, 0, 0, 0, 0] none
          = ParseResult.done ws_state.WS_MSG_COMPLETE m)
    ∧ ws_parse_data true [0x81, 0x7F, 0, 0, 0, 0, 0, 0, 0] none = ParseResult.fault
    ∧ (¬ ∃ m, ws_parse_data true [0x81, 0x7F, 0, 0, 0, 0, 0, 0, 0] none
          = ParseResult.done ws_state.WS_READING m
        ∨ ws_parse_data true [0x81, 0x7F, 0, 0, 0, 0, 0, 0, 0] none
          = ParseResult.done ws_state.WS_MSG_COMPLETE m) := by
  have h1 : ws_parse_data true [0x81, 0xFF, 0, 0, 0, 0, 0, 0] none = ParseResult.fault := by
    decide
  have h2 : ws_parse_data true [0x81, 0x7F, 0, 0, 0, 0, 0, 0, 0] none = ParseResult.fault := by
    decide
  refine ⟨h1, ?_, h2, ?_⟩
  · rintro ⟨m, h | h⟩
    · rw [h1] at h; exact absurd h (by simp)
    · rw [h1] at h; exact absurd h (by simp)
  · rintro ⟨m, h | h⟩
    · rw [h2] at h; exact absurd h (by simp)
    · rw [h2] at h; exact absurd h (by simp)

/-! ## The backend session of a connection -/

theorem ws_dispatch_with_session (env : Env) (w w2 : World) (c c2 : http_client)
    (m : List Nat) (a : Option formatting_fun) (own : cmd) (hs : c.self_cmd = some own)
    (h : ws_dispatch env w c m a = (w2, c2, 0)) :
    c2 = c ∧ w2.pool_connects = w.pool_connects
      ∧ ∃ x fmt, w2.sent = w.sent ++ [(x, fmt)] ∧ x.is_websocket = true ∧ x.ac = own.ac := by
  unfold ws_dispatch at h
  cases a with
  | none => simp at h
  | some fmt =>
    simp only at h
    cases hx : extract_of env fmt c m with
    | none => simp [hx] at h
    | some cmd0 =>
      simp only [hx, hs, Prod.mk.injEq] at h
      obtain ⟨hw, hc, _⟩ := h
      subst hw; subst hc
      exact ⟨rfl, rfl, _, _, rfl, rfl, rfl⟩

theorem ws_dispatch_first (env : Env) (w w2 : World) (c c2 : http_client)
    (m : List Nat) (a : Option formatting_fun) (hs : c.self_cmd = none)
    (h : ws_dispatch env w c m a = (w2, c2, 0)) :
    w2.pool_connects = w.pool_connects + 1
      ∧ ∃ x fmt, c2.self_cmd = some x ∧ w2.sent = w.sent ++ [(x, fmt)]
          ∧ x.is_websocket = true
          ∧ x.ac = env.pool_connect x.database w.pool_connects := by
  unfold ws_dispatch at h
  cases a with
  | none => simp at h
  | some fmt =>
    simp only at h
    cases hx : extract_of env fmt c m with
    | none => simp [hx] at h
    | some cmd0 =>
      simp only [hx, hs, Prod.mk.injEq] at h
      obtain ⟨hw, hc, _⟩ := h
      subst hw; subst hc
      exact ⟨rfl, _, _, rfl, rfl, rfl, rfl⟩

theorem ws_execute_as_dispatch (env : Env) (w w2 : World) (c c2 : http_client)
    (m : List Nat) (r : Int) (h : ws_execute env w c m = some (w2, c2, r)) :
    ∃ a, ws_dispatch env w c m a = (w2, c2, r) := by
  cases hp : c.path with
  | none =>
    unfold ws_execute at h
    rw [hp] at h
    exact absurd h (by simp)
  | some path =>
    rw [ws_execute_eq_dispatch env w c m path hp] at h
    exact ⟨_, Option.some.inj h⟩

theorem dispatch_all_with_session (env : Env) (msgs : List (List Nat)) :
    ∀ (w w2 : World) (c c2 : http_client) (own : cmd), c.self_cmd = some own →
      dispatch_all env w c msgs = some (w2, c2) →
      c2.self_cmd = some own ∧ w2.pool_connects = w.pool_connects
        ∧ ∃ new, w2.sent = w.sent ++ new ∧ new.length = msgs.length
            ∧ ∀ x ∈ new, x.1.is_websocket = true ∧ x.1.ac = own.ac := by
  induction msgs with
  | nil =>
    intro w w2 c c2 own hs h
    simp only [dispatch_all, Option.some.injEq, Prod.mk.injEq] at h
    obtain ⟨hw, hc⟩ := h
    subst hw; subst hc
    exact ⟨hs, rfl, [], by simp, rfl, by simp⟩
  | cons m rest ih =>
    intro w w2 c c2 own hs h
    unfold dispatch_all at h
    cases hx : ws_execute env w c m with
    | none => simp [hx] at h
    | some res =>
      obtain ⟨w1, c1, r⟩ := res
      simp only [hx] at h
      by_cases hr : r = 0
      · subst hr
        simp only [if_true] at h
        obtain ⟨a, ha⟩ := ws_execute_as_dispatch env w w1 c c1 m 0 hx
        obtain ⟨hc1, hp1, x, fmt, hsent, hweb, hac⟩ :=
          ws_dispatch_with_session env w w1 c c1 m a own hs ha
        subst hc1
        obtain ⟨k1, k2, new, k3, k4, k5⟩ := ih w1 w2 c1 c2 own hs h
        refine ⟨k1, by rw [k2, hp1], (x, fmt) :: new, ?_, ?_, ?_⟩
        · rw [k3, hsent, List.append_assoc]; rfl
        · simp [k4]
        · intro y hy
          rcases List.mem_cons.mp hy with hy | hy
          · subst hy
            exact ⟨hweb, hac⟩
          · exact k5 y hy
      · simp [hr] at h

theorem dispatch_all_sticky (env : Env) (w w2 : World) (c c2 : http_client)
    (m : List Nat) (rest : List (List Nat)) (h0 : c.self_cmd = none)
    (hrun : dispatch_all env w c (m :: rest) = some (w2, c2)) :
    ∃ first w1 c1, ws_execute env w c m = some (w1, c1, 0)
      ∧ c1.self_cmd = some first
      ∧ first.ac = env.pool_connect first.database w.pool_connects
      ∧ w1.pool_connects = w.pool_connects + 1
      ∧ c2.self_cmd = some first
      ∧ w2.pool_connects = w.pool_connects + 1
      ∧ ∃ new, w2.sent = w.sent ++ new ∧ new.length = (m :: rest).length
          ∧ ∀ x ∈ new, x.1.is_websocket = true ∧ x.1.ac = first.ac := by
  unfold dispatch_all at hrun
  cases hx : ws_execute env w c m with
  | none => simp [hx] at hrun
  | some res =>
    obtain ⟨w1, c1, r⟩ := res
    simp only [hx] at hrun
    by_cases hr : r = 0
    · subst hr
      simp only [if_true] at hrun
      obtain ⟨a, ha⟩ := ws_execute_as_dispatch env w w1 c c1 m 0 hx
      obtain ⟨hp1, x, fmt, hself, hsent, hweb, hac⟩ := ws_dispatch_first env w w1 c c1 m a h0 ha
      obtain ⟨k1, k2, new, k3, k4, k5⟩ := dispatch_all_with_session env rest w1 w2 c1 c2 x hself hrun
      refine ⟨x, w1, c1, rfl, hself, hac, hp1, k1, by rw [k2, hp1], (x, fmt) :: new, ?_, ?_, ?_⟩
      · rw [k3, hsent, List.append_assoc]; rfl
      · simp [k4]
      · intro y hy
        rcases List.mem_cons.mp hy with hy | hy
        · subst hy
          exact ⟨hweb, rfl⟩
        · exact k5 y hy
    · simp [hr] at hrun

/-- C17: for every non-empty sequence of messages dispatched successfully, one
after the other, on a connection that has no backend session yet, the first
dispatch opens one session with `pool_connect` and records the command that
holds it on the connection; every later dispatch opens no session and leaves
the recorded command in place; every command sent, the first included, is
tagged as WebSocket-originated and is bound to that one session; and one
command is sent per message. -/
theorem ws_execute_sticky_session (env : Env) (w w2 : World) (c c2 : http_client)
    (m : List Nat) (rest : List (List Nat)) (h0 : c.self_cmd = none)
    (hrun : dispatch_all env w c (m :: rest) = some (w2, c2)) :
    ∃ first w1 c1, ws_execute env w c m = some (w1, c1, 0)
      ∧ c1.self_cmd = some first
      ∧ first.ac = env.pool_connect first.database w.pool_connects
      ∧ w1.pool_connects = w.pool_connects + 1
      ∧ c2.self_cmd = some first
      ∧ w2.pool_connects = w.pool_connects + 1
      ∧ ∃ new, w2.sent = w.sent ++ new ∧ new.length = (m :: rest).length
          ∧ ∀ x ∈ new, x.1.is_websocket = true ∧ x.1.ac = first.ac :=
  dispatch_all_sticky env w w2 c c2 m rest h0 hrun

/-- Witness for C17: three messages on the sample connection. -/
theorem ws_execute_sticky_session_witness :
    ∃ first w1 c1, ws_execute sample_env empty_world sample_client [1] = some (w1, c1, 0)
      ∧ c1.self_cmd = some first
      ∧ first.ac = sample_env.pool_connect first.database empty_world.pool_connects
      ∧ w1.pool_connects = empty_world.pool_connects + 1
      ∧ sample_run.2.self_cmd
          = some first
      ∧ sample_run.1.pool_connects
          = empty_world.pool_connects + 1
      ∧ ∃ new,
          sample_run.1.sent
            = empty_world.sent ++ new
          ∧ new.length = ([1] :: [[2], [3]]).length
          ∧ ∀ x ∈ new, x.1.is_websocket = true ∧ x.1.ac = first.ac :=
  ws_execute_sticky_session sample_env empty_world
    sample_run.1
    sample_client
    sample_run.2
    [1] [[2], [3]] rfl rfl

/-! ## The size of the frame buffer -/

/-- C19: the frame built for a payload of 65537 bytes. The function allocates
`sz + 8 = 65545` bytes and writes `sz + 10 = 65547`, header and payload: the
last two bytes written lie outside the buffer. -/
theorem ws_frame_overruns_allocation :
    (ws_frame (List.replicate 65537 0)).length = 65547
    ∧ frame_alloc_sz (List.replicate 65537 0).length = 65545
    ∧ frame_alloc_sz (List.replicate 65537 0).length < (ws_frame (List.replicate 65537 0)).length
    := by
  have hl : (List.replicate 65537 0 : List Nat).length = 65537 := List.length_replicate _ _
  have h1 : (ws_frame (List.replicate 65537 0)).length = 65547 := by
    rw [ws_frame_length, hl]
    decide
  have h2 : frame_alloc_sz (List.replicate 65537 0).length = 65545 := by
    rw [hl]
    decide
  refine ⟨h1, h2, ?_⟩
  rw [h1, h2]
  decide

/-! ## The 64-bit conversions one after the other -/

/-- C20: the value `n = 128` (low byte 0x80) under a signed `char`.
`webdis_htonl64` stores the bytes `80 00 00 00 00 00 00 00`; read back,
`webdis_ntohl64` sign-extends the byte 0x80 and yields `2^64 - 128`, not
128. Likewise 65664 (0x010080) comes back as 65408. With an unsigned `char`
both values come back unchanged. -/
theorem webdis_ntohl64_htonl64_sign_extends :
    webdis_htonl64 128 = [0x80, 0, 0, 0, 0, 0, 0, 0]
    ∧ webdis_ntohl64 true (webdis_htonl64 128) = 18446744073709551488
    ∧ webdis_ntohl64 true (webdis_htonl64 128) ≠ 128
    ∧ webdis_ntohl64 true (webdis_htonl64 65664) = 65408
    ∧ webdis_ntohl64 false (webdis_htonl64 128) = 128
    ∧ webdis_ntohl64 false (webdis_htonl64 65664) = 65664 := by
  decide

end Webdis
